import Mathlib

/-!
Reboot coordination agent: transition tables and the `Klocksmith.Run` protocol.

Shallow embedding of

* `internal/constants/constants.go`   (the update-status values),
* `internal/transitions/transitions.go` (the two transition tables),
* `internal/klocksmith/klocksmith.go` (`Run`, `waitForRebootSignal`,
  `waitForOkToReboot`, `getPodsForDeletion`).

Go maps with constant keys are association lists (a Go map literal cannot repeat
a constant key), node labels are a finite map `String → Option String`, and the
collaborators of `Run` (node I/O, update engine, watch, drain listing, pod
deletion, logind) are an explicit table of results, one per call site, so that a
run is a function from such a table and an initial node to a trace of calls.
-/

set_option autoImplicit false

/-! ## internal/constants -/

namespace constants

/-- Go: `type StatusAnnotation string`. -/
abbrev StatusAnnotation := String

/-- Go: `NoUpdateAvailable StatusAnnotation = "no-update-available"`. -/
def NoUpdateAvailable : StatusAnnotation := "no-update-available"

/-- Go: `UpdateAvailable = "update-available"`. -/
def UpdateAvailable : StatusAnnotation := "update-available"

/-- Go: `UpdateExpected = "update-expected"`. -/
def UpdateExpected : StatusAnnotation := "update-expected"

/-- Go: `UpdateInProgress = "update-in-progress"`. -/
def UpdateInProgress : StatusAnnotation := "update-in-progress"

/-- Go: `UpdatesDisabled = "disabled"`. -/
def UpdatesDisabled : StatusAnnotation := "disabled"

/-- The five update-status values declared in `constants.go`, in source order. -/
def statusValues : List StatusAnnotation :=
  [NoUpdateAvailable, UpdateAvailable, UpdateExpected, UpdateInProgress, UpdatesDisabled]

end constants

/-! ## internal/transitions -/

namespace transitions

open constants

/-- Go: the map type of the two tables, from a `StatusAnnotation` to a set of
`StatusAnnotation` (a map to `struct{}`),
as an association list from a source state to the list of its permitted targets. -/
abbrev TransitionMap := List ( StatusAnnotation × List StatusAnnotation)

/-- Modelled from the spec: the identifier `UpdateDisabled`, which
`transitions.go` uses as a key of `agentTransitionMap`, is declared nowhere under
`src/` (`constants.go` declares `UpdatesDisabled`). The spec names this source
state `Disabled` and asks for one canonical "disabled" state, so the identifier
denotes the value `"disabled"`. -/
def UpdateDisabled : StatusAnnotation := UpdatesDisabled

/-- Go: `var agentTransitionMap = map[...]...{ ... }` (transitions.go, lines 6-18). -/
def agentTransitionMap : TransitionMap :=
  [ (NoUpdateAvailable, [UpdateAvailable]),
    (UpdateAvailable, []),
    (UpdateExpected, [UpdateInProgress]),
    (UpdateInProgress, [NoUpdateAvailable]),
    (UpdateDisabled, []) ]

/-- Go: `var operatorTransitionMap = map[...]...{ ... }` (transitions.go, lines 20-24). -/
def operatorTransitionMap : TransitionMap :=
  [ (UpdateAvailable, [UpdateExpected]) ]

/-- The source states of a table (the keys of the outer Go map). -/
def sources (m : TransitionMap) : List StatusAnnotation := m.map Prod.fst

/-- Go: `_, ok := m[from][to]`. Indexing the outer map with an absent key yields a
nil inner map, in which no key is present. -/
def hasEdge (m : TransitionMap) (src dst : StatusAnnotation) : Bool :=
  match m.lookup src with
  | some targets => targets.contains dst
  | none => false

/-- The two writer roles of the update-status annotation. -/
inductive Role where
  | agent
  | operator
  deriving DecidableEq, Repr

/-- The table a role writes under. -/
def Role.table : Role → TransitionMap
  | .agent => agentTransitionMap
  | .operator => operatorTransitionMap

/-- Modelled from the spec: the check a writer performs before writing the
annotation; no function of `src/` reads the two tables. Spec, section 4.1: "before
writing, the writer looks up the current value under its own table and confirms the
target is a member of the permitted set; otherwise the write is rejected as a
protocol violation. Re-asserting the same value is always legal for any role". -/
def accepted (r : Role) (src dst : StatusAnnotation) : Bool :=
  src == dst || hasEdge r.table src dst

end transitions

/-! ## internal/klocksmith -/

namespace klocksmith

/-- Modelled from the spec: the label keys `labelRebootInProgress`,
`labelRebootNeeded` and `labelOkToReboot` are used by `klocksmith.go` and declared
in a file that is not under `src/`. The comment at the head of `Run` spells the
first two keys in full; the third is the `ok-to-reboot` of the spec under the same
fixed key namespace. -/
def labelRebootInProgress : String := "coreos.com/update1/reboot-in-progress"

/-- Modelled from the spec: see `labelRebootInProgress`. -/
def labelRebootNeeded : String := "coreos.com/update1/reboot-needed"

/-- Modelled from the spec: see `labelRebootInProgress`. -/
def labelOkToReboot : String := "coreos.com/update1/ok-to-reboot"

/-- Modelled from the spec: `updateengine.UpdateStatusUpdatedNeedReboot`, a constant
of a package that is not under `src/`; `constants.go` lists the value among the
update_engine operations. -/
def UpdateStatusUpdatedNeedReboot : String := "UPDATE_STATUS_UPDATED_NEED_REBOOT"

/-- Go: `map[string]string`. -/
abbrev LabelMap := String → Option String

/-- Go map indexing `m[k]`: the zero value `""` when the key is absent. -/
def LabelMap.index (m : LabelMap) (k : String) : String := (m k).getD ""

/-- The part of `v1api.Node` the agent reads and writes: `ObjectMeta.Labels` and
`Spec.Unschedulable`. -/
structure Node where
  Labels : LabelMap
  Unschedulable : Bool

/-- A merge patch of labels: every key of the patch is set, every other key is
kept. -/
def mergeLabels (patch : List (String × String)) (m : LabelMap) : LabelMap :=
  patch.foldl (fun acc kv => fun k => if k = kv.1 then some kv.2 else acc k) m

/-- Modelled from the spec: the helper `setNodeLabels(nc, node, labels)` is not under
`src/`. Spec, section 6: `patchLabels(nodeID, map) -> ok|error`, and section 3: agent
writes are small-key merge patches. The first argument is the error the call
returns (`none` for success); a failed call leaves the node as it was. -/
def setNodeLabels (res : Option String) (labels : List (String × String)) (n : Node) : Node :=
  match res with
  | none => { n with Labels := mergeLabels labels n.Labels }
  | some _ => n

/-- Modelled from the spec: the helper `unschedulable(nc, node, flag)` is not under
`src/`; it marks the node schedulable or unschedulable (spec, section 4.2, steps 1
and 6). The first argument is the error the call returns; a failed call leaves
the node as it was. -/
def unschedulable (res : Option String) (flag : Bool) (n : Node) : Node :=
  match res with
  | none => { n with Unschedulable := flag }
  | some _ => n

/-- How a pod came to be: owned by a controller, or unowned (bare or mirror). -/
inductive Ownership where
  | controller
  | bare
  | mirror
  deriving DecidableEq, Repr

/-- The part of `v1api.Pod` that the agent and the drain listing look at. -/
structure Pod where
  Name : String
  Namespace : String
  owner : Ownership
  deriving DecidableEq, Repr

/-- The object carried by a watch event (`ev.Object`): a `*v1api.Node` or anything
else. -/
inductive Object where
  | node (n : Node)
  | other

/-- The collaborator calls `Run` can issue, with their arguments. Logging and the
cancellation of the signal context are not recorded. -/
inductive Call where
  | setNodeLabels (node : String) (labels : List (String × String))
  | unschedulable (node : String) (flag : Bool)
  | getStatus
  | rebootNeededSignal
  | nodeGet (node : String)
  | nodeWatch (name : String) (resourceVersion : String)
  | watchUntil (hours : Nat) (label : String) (value : String)
  | drainGetPodsForDeletion (node : String)
  | podDelete (ns : String) (name : String) (gracePeriodSeconds : Nat)
  | reboot (askForAuth : Bool)
  | sleep (hours : Nat)
  deriving DecidableEq, Repr

/-- One entry of a run: the call, the error it returned (`none` when it returned
without error) and the node as it is when the call has returned. -/
structure Step where
  call : Call
  err : Option String
  node : Node

/-- The errors `Run` builds with `fmt.Errorf`, by format string, and the errors of
collaborators it returns unchanged. -/
inductive Error where
  /-- Go: `return err`. -/
  | collaborator (cause : String)
  /-- Go: `"failed to get update_engine status: %v"`. -/
  | failedGetStatus (cause : String)
  /-- Go: `"failed to get self node (%q): %v"`. -/
  | failedGetSelfNode (node : String) (cause : String)
  /-- Go: `"failed to watch self node (%q): %v"`. -/
  | failedWatchSelfNode (node : String) (cause : String)
  /-- Go: `"waiting for label %q failed: %v"`. -/
  | waitingForLabelFailed (label : String) (cause : String)
  /-- Go: `"failed to get list of pods for deletion: %v"`. -/
  | failedGetPodList (cause : String)
  /-- Go: `"failed terminating pod %q: %v"`. -/
  | failedTerminatingPod (pod : String) (cause : String)
  deriving DecidableEq, Repr

/-- How a function of the agent ends: it returns `nil`, returns an error, panics,
or blocks for ever on a channel receive. -/
inductive Ret where
  | nil
  | err (e : Error)
  | panic (msg : String)
  | blocked
  deriving DecidableEq, Repr

/-- The results of the collaborators, one per call site of `klocksmith.go`. -/
structure Env where
  /-- Go: `k.node`. -/
  node : String
  /-- Line 67: `setNodeLabels` with both labels `"false"`. -/
  resetLabels : Option String
  /-- Line 73: `unschedulable(k.nc, k.node, false)`. -/
  markSchedulable : Option String
  /-- Line 152: `k.ue.GetStatus()`, the `CurrentOperation` of the status. -/
  getStatus : Except String String
  /-- Line 162: whether a status is ever received on `stc`. -/
  rebootNeededSignal : Bool
  /-- Line 88: `setNodeLabels` with `reboot-needed` `"true"`. -/
  announce : Option String
  /-- Line 171: `k.nc.Get(k.node)`, the name and resource version of the node. -/
  nodeGet : Except String (String × String)
  /-- Line 177: `k.nc.Watch(...)`. -/
  nodeWatch : Option String
  /-- Line 187: `watch.Until(...)`, the object of the event it yields. -/
  watchUntil : Except String Object
  /-- Line 103: `setNodeLabels` with `reboot-in-progress` `"true"`. -/
  markInProgress : Option String
  /-- Line 115: `unschedulable(k.nc, k.node, true)`. -/
  markUnschedulable : Option String
  /-- Line 206: `drain.GetPodsForDeletion(k.kc, k.node)`. -/
  drainPods : Except String (List Pod)
  /-- Line 132: the `Delete` call of the i-th iteration of the loop, from 0. -/
  podDelete : Nat → Option String

/-- A run: the calls issued, in order, and how the function ended. -/
structure Exec where
  trace : List Step
  ret : Ret

/-- The node when the run has ended. -/
def Exec.final (x : Exec) (n0 : Node) : Node :=
  match x.trace.getLast? with
  | some s => s.node
  | none => n0

end klocksmith

namespace k8sutil

open klocksmith

/-- Modelled from the spec: `k8sutil.FilterPods` is not under `src/`. Spec, section
4.3: the excluded workloads are dropped and "remaining workloads are returned in
discovery order". -/
def FilterPods (pods : List Pod) (keep : Pod → Bool) : List Pod :=
  pods.filter keep

end k8sutil

namespace drain

open klocksmith

/-- Modelled from the spec: `drain.GetPodsForDeletion` is not under `src/`.
Spec, section 4.3: "list all workloads placed on the node; exclude bare/mirror
workloads (not owned by any controller)". The argument is the result of listing the pods of
the node. -/
def GetPodsForDeletion (listing : Except String (List Pod)) : Except String (List Pod) :=
  match listing with
  | .error e => .error e
  | .ok pods => .ok (pods.filter (fun p => p.owner == Ownership.controller))

end drain

namespace klocksmith

/-- Go: `func (k *Klocksmith) waitForRebootSignal() error` (lines 150-168). -/
def waitForRebootSignal (env : Env) (n : Node) : List Step × Ret :=
  match env.getStatus with
  | .error e => ([⟨.getStatus, some e, n⟩], .err (.failedGetStatus e))
  | .ok currentOperation =>
    if currentOperation != UpdateStatusUpdatedNeedReboot then
      if env.rebootNeededSignal then
        ([⟨.getStatus, none, n⟩, ⟨.rebootNeededSignal, none, n⟩], .nil)
      else
        ([⟨.getStatus, none, n⟩, ⟨.rebootNeededSignal, none, n⟩], .blocked)
    else
      ([⟨.getStatus, none, n⟩], .nil)

/-- Go: `func (k *Klocksmith) waitForOkToReboot() error` (lines 170-203). -/
def waitForOkToReboot (env : Env) (n : Node) : List Step × Ret :=
  match env.nodeGet with
  | .error e =>
    ([⟨.nodeGet env.node, some e, n⟩], .err (.failedGetSelfNode env.node e))
  | .ok (name, resourceVersion) =>
    match env.nodeWatch with
    | some e =>
      ([⟨.nodeGet env.node, none, n⟩, ⟨.nodeWatch name resourceVersion, some e, n⟩],
        .err (.failedWatchSelfNode env.node e))
    | none =>
      match env.watchUntil with
      | .error e =>
        ([⟨.nodeGet env.node, none, n⟩, ⟨.nodeWatch name resourceVersion, none, n⟩,
          ⟨.watchUntil 24 labelOkToReboot "true", some e, n⟩],
          .err (.waitingForLabelFailed labelOkToReboot e))
      | .ok obj =>
        let calls : List Step :=
          [⟨.nodeGet env.node, none, n⟩, ⟨.nodeWatch name resourceVersion, none, n⟩,
            ⟨.watchUntil 24 labelOkToReboot "true", none, n⟩]
        match obj with
        | .other => (calls, .panic "event contains a non-*api.Node object")
        | .node no =>
          if no.Labels.index labelOkToReboot != "true" then
            (calls, .panic "event did not contain label expected")
          else
            (calls, .nil)

/-- Go: `func (k *Klocksmith) getPodsForDeletion() ([]v1api.Pod, error)`
(lines 205-224). -/
def getPodsForDeletion (env : Env) (n : Node) : List Step × Except Error (List Pod) :=
  match env.drainPods with
  | .error e =>
    ([⟨.drainGetPodsForDeletion env.node, some e, n⟩], .error (.failedGetPodList e))
  | .ok pods =>
    ([⟨.drainGetPodsForDeletion env.node, none, n⟩],
      .ok (k8sutil.FilterPods pods (fun p => if p.Namespace = "kube-system" then false else true)))

/-- Go: the loop `for _, pod := range pods { ... Delete ... }` of `Run`
(lines 130-135), from iteration `i` on. -/
def deletePods (env : Env) (n : Node) : Nat → List Pod → List Step × Ret
  | _, [] => ([], .nil)
  | i, pod :: rest =>
    match env.podDelete i with
    | some e =>
      ([⟨.podDelete pod.Namespace pod.Name 30, some e, n⟩],
        .err (.failedTerminatingPod pod.Name e))
    | none =>
      let r := deletePods env n (i + 1) rest
      (⟨.podDelete pod.Namespace pod.Name 30, none, n⟩ :: r.1, r.2)

/-- Go: `func (k *Klocksmith) Run() error` (lines 59-146), started on node `n0`. -/
def Run (env : Env) (n0 : Node) : Exec :=
  let annoReset := [(labelRebootInProgress, "false"), (labelRebootNeeded, "false")]
  let n1 := setNodeLabels env.resetLabels annoReset n0
  let t1 : List Step := [⟨.setNodeLabels env.node annoReset, env.resetLabels, n1⟩]
  match env.resetLabels with
  | some e => ⟨t1, .err (.collaborator e)⟩
  | none =>
  let n2 := unschedulable env.markSchedulable false n1
  let t2 : List Step := t1 ++ [⟨.unschedulable env.node false, env.markSchedulable, n2⟩]
  match env.markSchedulable with
  | some e => ⟨t2, .err (.collaborator e)⟩
  | none =>
  let w3 := waitForRebootSignal env n2
  let t3 := t2 ++ w3.1
  match w3.2 with
  | .err e => ⟨t3, .err e⟩
  | .panic msg => ⟨t3, .panic msg⟩
  | .blocked => ⟨t3, .blocked⟩
  | .nil =>
  let annoNeeded := [(labelRebootNeeded, "true")]
  let n4 := setNodeLabels env.announce annoNeeded n2
  let t4 := t3 ++ [⟨.setNodeLabels env.node annoNeeded, env.announce, n4⟩]
  match env.announce with
  | some e => ⟨t4, .err (.collaborator e)⟩
  | none =>
  let w5 := waitForOkToReboot env n4
  let t5 := t4 ++ w5.1
  match w5.2 with
  | .err e => ⟨t5, .err e⟩
  | .panic msg => ⟨t5, .panic msg⟩
  | .blocked => ⟨t5, .blocked⟩
  | .nil =>
  let annoInProgress := [(labelRebootInProgress, "true")]
  let n6 := setNodeLabels env.markInProgress annoInProgress n4
  let t6 := t5 ++ [⟨.setNodeLabels env.node annoInProgress, env.markInProgress, n6⟩]
  match env.markInProgress with
  | some e => ⟨t6, .err (.collaborator e)⟩
  | none =>
  let n7 := unschedulable env.markUnschedulable true n6
  let t7 := t6 ++ [⟨.unschedulable env.node true, env.markUnschedulable, n7⟩]
  match env.markUnschedulable with
  | some e => ⟨t7, .err (.collaborator e)⟩
  | none =>
  let g8 := getPodsForDeletion env n7
  let t8 := t7 ++ g8.1
  match g8.2 with
  | .error e => ⟨t8, .err e⟩
  | .ok pods =>
  let d9 := deletePods env n7 0 pods
  let t9 := t8 ++ d9.1
  match d9.2 with
  | .err e => ⟨t9, .err e⟩
  | .panic msg => ⟨t9, .panic msg⟩
  | .blocked => ⟨t9, .blocked⟩
  | .nil =>
  ⟨t9 ++ [⟨.reboot false, none, n7⟩, ⟨.sleep (24 * 7), none, n7⟩], .nil⟩

end klocksmith

/-! ## Vocabulary for statements about runs -/

namespace klocksmith

/-- Trace property: every step that satisfies `Q` has a step that satisfies `P`
strictly before it. -/
def Precedes (P Q : Step → Prop) (t : List Step) : Prop :=
  ∀ pre st post, t = pre ++ st :: post → Q st → ∃ s ∈ pre, P s

/-- The call is a pod deletion. -/
def Call.isPodDelete : Call → Bool
  | .podDelete _ _ _ => true
  | _ => false

/-- The call is the reboot sink. -/
def Call.isReboot : Call → Bool
  | .reboot _ => true
  | _ => false

/-- The call belongs to the approval wait (`waitForOkToReboot`). -/
def Call.isApprovalWait : Call → Bool
  | .nodeGet _ => true
  | .nodeWatch _ _ => true
  | .watchUntil _ _ _ => true
  | _ => false

/-- The node once the Reset step of `Run` (lines 60-75) has succeeded. -/
def afterReset (n0 : Node) : Node :=
  unschedulable none false
    (setNodeLabels none [(labelRebootInProgress, "false"), (labelRebootNeeded, "false")] n0)

/-- The node once the Announce step of `Run` (lines 83-90) has succeeded. -/
def afterAnnounce (n0 : Node) : Node :=
  setNodeLabels none [(labelRebootNeeded, "true")] (afterReset n0)

/-- The node once the MarkInProgress step of `Run` (lines 98-105) has succeeded. -/
def afterMarkInProgress (n0 : Node) : Node :=
  setNodeLabels none [(labelRebootInProgress, "true")] (afterAnnounce n0)

/-- The node once `unschedulable(k.nc, k.node, true)` (line 115) has succeeded. -/
def afterMarkUnschedulable (n0 : Node) : Node :=
  unschedulable none true (afterMarkInProgress n0)

/-- The calls of a run that has got as far as a successful Reset. -/
def traceReset (env : Env) (n0 : Node) : List Step :=
  [⟨.setNodeLabels env.node [(labelRebootInProgress, "false"), (labelRebootNeeded, "false")],
      none, setNodeLabels none [(labelRebootInProgress, "false"), (labelRebootNeeded, "false")] n0⟩,
    ⟨.unschedulable env.node false, none, afterReset n0⟩]

/-- The calls of a run up to and including a successful Announce. -/
def traceAnnounce (env : Env) (n0 : Node) : List Step :=
  traceReset env n0 ++ (waitForRebootSignal env (afterReset n0)).1 ++
    [⟨.setNodeLabels env.node [(labelRebootNeeded, "true")], none, afterAnnounce n0⟩]

/-- The calls of a run up to and including a successful MarkInProgress. -/
def traceMarkInProgress (env : Env) (n0 : Node) : List Step :=
  traceAnnounce env n0 ++ (waitForOkToReboot env (afterAnnounce n0)).1 ++
    [⟨.setNodeLabels env.node [(labelRebootInProgress, "true")], none, afterMarkInProgress n0⟩]

/-- The calls of a run up to and including a successful pod listing. -/
def traceListed (env : Env) (n0 : Node) : List Step :=
  traceMarkInProgress env n0 ++
    [⟨.unschedulable env.node true, none, afterMarkUnschedulable n0⟩,
      ⟨.drainGetPodsForDeletion env.node, none, afterMarkUnschedulable n0⟩]

end klocksmith

/-! ## Concrete runs -/

namespace klocksmith

/-- A schedulable node that carries no label. -/
def nodeFresh : Node := ⟨fun _ => none, false⟩

/-- The node event in which the approval authority has set `ok-to-reboot`. -/
def nodeApproved : Node :=
  ⟨fun k => if k = labelOkToReboot then some "true" else none, false⟩

/-- A world in which every collaborator succeeds, the update engine already
reports that a reboot is needed, and the drain listing yields `pods`. -/
def envAllOk (pods : List Pod) : Env where
  node := "node-1"
  resetLabels := none
  markSchedulable := none
  getStatus := .ok UpdateStatusUpdatedNeedReboot
  rebootNeededSignal := true
  announce := none
  nodeGet := .ok ("node-1", "42")
  nodeWatch := none
  watchUntil := .ok (.node nodeApproved)
  markInProgress := none
  markUnschedulable := none
  drainPods := .ok pods
  podDelete := fun _ => none

/-- Three controller-owned pods in namespace `default`. -/
def threePods : List Pod :=
  [⟨"web-1", "default", .controller⟩, ⟨"web-2", "default", .controller⟩,
    ⟨"web-3", "default", .controller⟩]

/-- Scenario D of the spec: as `envAllOk threePods`, but the second `Delete` fails. -/
def envSecondDeleteFails : Env :=
  { envAllOk threePods with
    podDelete := fun i => if i = 1 then some "etcdserver: request timed out" else none }

/-- Scenario B of the spec: as `envAllOk []`, but the watch times out before
`ok-to-reboot` is seen. -/
def envApprovalTimeout : Env :=
  { envAllOk [] with watchUntil := .error "timed out waiting for the condition" }

/-- Scenario C of the spec: the pods on the node are a mirror pod, a pod of the
system namespace and a controller-owned pod in `default`. -/
def scenarioCPods : List Pod :=
  [⟨"kube-proxy-node-1", "default", .mirror⟩, ⟨"kube-dns-v20", "kube-system", .controller⟩,
    ⟨"web-1", "default", .controller⟩]

/-- Scenario C of the spec: as `envAllOk`, with the drain listing computed from the
pods of `scenarioCPods`. -/
def envScenarioC : Env :=
  { envAllOk [] with drainPods := drain.GetPodsForDeletion (.ok scenarioCPods) }

end klocksmith

/-! ## The transition tables -/

namespace transitions

open constants

/-- C5: `agentTransitionMap` is exactly NoUpdateAvailable->{UpdateAvailable},
UpdateAvailable->{}, UpdateExpected->{UpdateInProgress},
UpdateInProgress->{NoUpdateAvailable}, Disabled->{}; `operatorTransitionMap` is
exactly UpdateAvailable->{UpdateExpected}; every source and every target is one of
the five update-status values; the only source the two tables share is
UpdateAvailable, and they share no edge. -/
theorem tables_exact :
    -- the agent table, as a map from each source to its set of targets
    (∀ s : StatusAnnotation, agentTransitionMap.lookup s =
        if s = "no-update-available" then some ["update-available"]
        else if s = "update-available" then some []
        else if s = "update-expected" then some ["update-in-progress"]
        else if s = "update-in-progress" then some ["no-update-available"]
        else if s = "disabled" then some []
        else none) ∧
    (sources agentTransitionMap).Nodup ∧
    (∀ s t : StatusAnnotation, hasEdge agentTransitionMap s t = true ↔
        (s = NoUpdateAvailable ∧ t = UpdateAvailable) ∨
        (s = UpdateExpected ∧ t = UpdateInProgress) ∨
        (s = UpdateInProgress ∧ t = NoUpdateAvailable)) ∧
    -- the operator table
    (∀ s : StatusAnnotation, operatorTransitionMap.lookup s =
        if s = "update-available" then some ["update-expected"] else none) ∧
    (∀ s t : StatusAnnotation, hasEdge operatorTransitionMap s t = true ↔
        (s = UpdateAvailable ∧ t = UpdateExpected)) ∧
    -- every state named by a table is one of the five enumerated values
    (∀ row ∈ agentTransitionMap ++ operatorTransitionMap,
        row.1 ∈ statusValues ∧ ∀ t ∈ row.2, t ∈ statusValues) ∧
    -- the shared source, and no shared edge
    (∀ s : StatusAnnotation,
        (s ∈ sources agentTransitionMap ∧ s ∈ sources operatorTransitionMap) ↔
          s = UpdateAvailable) ∧
    (∀ s t : StatusAnnotation,
        ¬ (hasEdge agentTransitionMap s t = true ∧ hasEdge operatorTransitionMap s t = true)) := by
  have hag : ∀ s : StatusAnnotation, agentTransitionMap.lookup s =
        if s = "no-update-available" then some ["update-available"]
        else if s = "update-available" then some []
        else if s = "update-expected" then some ["update-in-progress"]
        else if s = "update-in-progress" then some ["no-update-available"]
        else if s = "disabled" then some []
        else none := by
    intro s
    simp only [agentTransitionMap, NoUpdateAvailable, UpdateAvailable, UpdateExpected,
      UpdateInProgress, UpdateDisabled, UpdatesDisabled, List.lookup]
    by_cases h1 : s = "no-update-available"
    · subst h1; rfl
    by_cases h2 : s = "update-available"
    · subst h2; rfl
    by_cases h3 : s = "update-expected"
    · subst h3; rfl
    by_cases h4 : s = "update-in-progress"
    · subst h4; rfl
    by_cases h5 : s = "disabled"
    · subst h5; rfl
    have e1 : (s == "no-update-available") = false := by simpa using h1
    have e2 : (s == "update-available") = false := by simpa using h2
    have e3 : (s == "update-expected") = false := by simpa using h3
    have e4 : (s == "update-in-progress") = false := by simpa using h4
    have e5 : (s == "disabled") = false := by simpa using h5
    simp [e1, e2, e3, e4, e5, h1, h2, h3, h4, h5]
  have hop : ∀ s : StatusAnnotation, operatorTransitionMap.lookup s =
        if s = "update-available" then some ["update-expected"] else none := by
    intro s
    simp only [operatorTransitionMap, UpdateAvailable, UpdateExpected, List.lookup]
    by_cases h2 : s = "update-available"
    · subst h2; rfl
    have e2 : (s == "update-available") = false := by simpa using h2
    simp [e2, h2]
  have hagE : ∀ s t : StatusAnnotation, hasEdge agentTransitionMap s t = true ↔
        (s = NoUpdateAvailable ∧ t = UpdateAvailable) ∨
        (s = UpdateExpected ∧ t = UpdateInProgress) ∨
        (s = UpdateInProgress ∧ t = NoUpdateAvailable) := by
    intro s t
    unfold hasEdge
    rw [hag s]
    simp only [NoUpdateAvailable, UpdateAvailable, UpdateExpected, UpdateInProgress]
    by_cases h1 : s = "no-update-available"
    · subst h1; simp [eq_comm]
    by_cases h2 : s = "update-available"
    · subst h2; simp
    by_cases h3 : s = "update-expected"
    · subst h3; simp [eq_comm]
    by_cases h4 : s = "update-in-progress"
    · subst h4; simp [eq_comm]
    by_cases h5 : s = "disabled"
    · subst h5; simp
    simp [h1, h2, h3, h4, h5]
  have hopE : ∀ s t : StatusAnnotation, hasEdge operatorTransitionMap s t = true ↔
        (s = UpdateAvailable ∧ t = UpdateExpected) := by
    intro s t
    unfold hasEdge
    rw [hop s]
    simp only [UpdateAvailable, UpdateExpected]
    by_cases h2 : s = "update-available"
    · subst h2; simp [eq_comm]
    simp [h2]
  refine ⟨hag, by decide, hagE, hop, hopE, by decide, ?_, ?_⟩
  · intro s
    constructor
    · rintro ⟨-, h⟩
      simpa [sources, operatorTransitionMap] using h
    · rintro rfl
      decide
  · intro s t ⟨h1, h2⟩
    rw [hagE] at h1
    rw [hopE] at h2
    obtain ⟨rfl, rfl⟩ := h2
    revert h1
    decide

end transitions

/-! ## How a run unfolds -/

namespace klocksmith

/-- Case analysis of `Run`: the run stops at the first step that does not return
`nil`, with the calls issued so far, or goes through to the reboot. -/
theorem Run_elim (env : Env) (n0 : Node) (motive : Exec → Prop)
    (hReset : ∀ e, env.resetLabels = some e →
      motive ⟨[⟨.setNodeLabels env.node
        [(labelRebootInProgress, "false"), (labelRebootNeeded, "false")], some e, n0⟩],
        .err (.collaborator e)⟩)
    (hSched : ∀ e, env.resetLabels = none → env.markSchedulable = some e →
      motive ⟨[⟨.setNodeLabels env.node
          [(labelRebootInProgress, "false"), (labelRebootNeeded, "false")], none,
          setNodeLabels none [(labelRebootInProgress, "false"), (labelRebootNeeded, "false")] n0⟩,
        ⟨.unschedulable env.node false, some e,
          setNodeLabels none [(labelRebootInProgress, "false"), (labelRebootNeeded, "false")] n0⟩],
        .err (.collaborator e)⟩)
    (hSignal : ∀ r, env.resetLabels = none → env.markSchedulable = none →
      (waitForRebootSignal env (afterReset n0)).2 = r → r ≠ .nil →
      motive ⟨traceReset env n0 ++ (waitForRebootSignal env (afterReset n0)).1, r⟩)
    (hAnnounce : ∀ e, env.resetLabels = none → env.markSchedulable = none →
      (waitForRebootSignal env (afterReset n0)).2 = .nil → env.announce = some e →
      motive ⟨traceReset env n0 ++ (waitForRebootSignal env (afterReset n0)).1 ++
        [⟨.setNodeLabels env.node [(labelRebootNeeded, "true")], some e, afterReset n0⟩],
        .err (.collaborator e)⟩)
    (hApproval : ∀ r, env.resetLabels = none → env.markSchedulable = none →
      (waitForRebootSignal env (afterReset n0)).2 = .nil → env.announce = none →
      (waitForOkToReboot env (afterAnnounce n0)).2 = r → r ≠ .nil →
      motive ⟨traceAnnounce env n0 ++ (waitForOkToReboot env (afterAnnounce n0)).1, r⟩)
    (hInProgress : ∀ e, env.resetLabels = none → env.markSchedulable = none →
      (waitForRebootSignal env (afterReset n0)).2 = .nil → env.announce = none →
      (waitForOkToReboot env (afterAnnounce n0)).2 = .nil → env.markInProgress = some e →
      motive ⟨traceAnnounce env n0 ++ (waitForOkToReboot env (afterAnnounce n0)).1 ++
        [⟨.setNodeLabels env.node [(labelRebootInProgress, "true")], some e, afterAnnounce n0⟩],
        .err (.collaborator e)⟩)
    (hUnsched : ∀ e, env.resetLabels = none → env.markSchedulable = none →
      (waitForRebootSignal env (afterReset n0)).2 = .nil → env.announce = none →
      (waitForOkToReboot env (afterAnnounce n0)).2 = .nil → env.markInProgress = none →
      env.markUnschedulable = some e →
      motive ⟨traceMarkInProgress env n0 ++
        [⟨.unschedulable env.node true, some e, afterMarkInProgress n0⟩],
        .err (.collaborator e)⟩)
    (hList : ∀ e, env.resetLabels = none → env.markSchedulable = none →
      (waitForRebootSignal env (afterReset n0)).2 = .nil → env.announce = none →
      (waitForOkToReboot env (afterAnnounce n0)).2 = .nil → env.markInProgress = none →
      env.markUnschedulable = none → env.drainPods = .error e →
      motive ⟨traceMarkInProgress env n0 ++
        [⟨.unschedulable env.node true, none, afterMarkUnschedulable n0⟩,
          ⟨.drainGetPodsForDeletion env.node, some e, afterMarkUnschedulable n0⟩],
        .err (.failedGetPodList e)⟩)
    (hDelete : ∀ pods r, env.resetLabels = none → env.markSchedulable = none →
      (waitForRebootSignal env (afterReset n0)).2 = .nil → env.announce = none →
      (waitForOkToReboot env (afterAnnounce n0)).2 = .nil → env.markInProgress = none →
      env.markUnschedulable = none →
      (getPodsForDeletion env (afterMarkUnschedulable n0)).2 = .ok pods →
      (deletePods env (afterMarkUnschedulable n0) 0 pods).2 = r → r ≠ .nil →
      motive ⟨traceListed env n0 ++ (deletePods env (afterMarkUnschedulable n0) 0 pods).1, r⟩)
    (hReboot : ∀ pods, env.resetLabels = none → env.markSchedulable = none →
      (waitForRebootSignal env (afterReset n0)).2 = .nil → env.announce = none →
      (waitForOkToReboot env (afterAnnounce n0)).2 = .nil → env.markInProgress = none →
      env.markUnschedulable = none →
      (getPodsForDeletion env (afterMarkUnschedulable n0)).2 = .ok pods →
      (deletePods env (afterMarkUnschedulable n0) 0 pods).2 = .nil →
      motive ⟨traceListed env n0 ++ (deletePods env (afterMarkUnschedulable n0) 0 pods).1 ++
        [⟨.reboot false, none, afterMarkUnschedulable n0⟩,
          ⟨.sleep (24 * 7), none, afterMarkUnschedulable n0⟩], .nil⟩) :
    motive (Run env n0) := by
  unfold Run
  simp only []
  cases h1 : env.resetLabels with
  | some e => simpa [setNodeLabels] using hReset e h1
  | none =>
  cases h2 : env.markSchedulable with
  | some e => simpa [setNodeLabels, unschedulable] using hSched e h1 h2
  | none =>
  simp only []
  have e2 : unschedulable none false
      (setNodeLabels none [(labelRebootInProgress, "false"), (labelRebootNeeded, "false")] n0)
      = afterReset n0 := rfl
  rw [e2]
  cases h3 : (waitForRebootSignal env (afterReset n0)).2 with
  | err e => simpa [traceReset] using hSignal _ h1 h2 h3 (by simp)
  | panic m => simpa [traceReset] using hSignal _ h1 h2 h3 (by simp)
  | blocked => simpa [traceReset] using hSignal _ h1 h2 h3 (by simp)
  | nil =>
  simp only []
  cases h4 : env.announce with
  | some e =>
    simpa [traceReset, setNodeLabels, unschedulable, afterReset] using
      hAnnounce e h1 h2 h3 h4
  | none =>
  simp only []
  have e4 : setNodeLabels none [(labelRebootNeeded, "true")] (afterReset n0)
      = afterAnnounce n0 := rfl
  rw [e4]
  have t4 : [(⟨.setNodeLabels env.node
          [(labelRebootInProgress, "false"), (labelRebootNeeded, "false")], none,
          setNodeLabels none [(labelRebootInProgress, "false"), (labelRebootNeeded, "false")] n0⟩
          : Step)] ++
        [⟨.unschedulable env.node false, none, afterReset n0⟩] ++
        (waitForRebootSignal env (afterReset n0)).1 ++
        [⟨.setNodeLabels env.node [(labelRebootNeeded, "true")], none, afterAnnounce n0⟩]
      = traceAnnounce env n0 := by
    simp [traceAnnounce, traceReset]
  rw [t4]
  cases h5 : (waitForOkToReboot env (afterAnnounce n0)).2 with
  | err e => simpa using hApproval _ h1 h2 h3 h4 h5 (by simp)
  | panic m => simpa using hApproval _ h1 h2 h3 h4 h5 (by simp)
  | blocked => simpa using hApproval _ h1 h2 h3 h4 h5 (by simp)
  | nil =>
  simp only []
  cases h6 : env.markInProgress with
  | some e => simpa [setNodeLabels] using hInProgress e h1 h2 h3 h4 h5 h6
  | none =>
  simp only []
  have e6 : setNodeLabels none [(labelRebootInProgress, "true")] (afterAnnounce n0)
      = afterMarkInProgress n0 := rfl
  rw [e6]
  have t6 : traceAnnounce env n0 ++ (waitForOkToReboot env (afterAnnounce n0)).1 ++
        [⟨.setNodeLabels env.node [(labelRebootInProgress, "true")], none,
          afterMarkInProgress n0⟩]
      = traceMarkInProgress env n0 := rfl
  rw [t6]
  cases h7 : env.markUnschedulable with
  | some e => simpa [unschedulable] using hUnsched e h1 h2 h3 h4 h5 h6 h7
  | none =>
  simp only []
  have e7 : unschedulable none true (afterMarkInProgress n0) = afterMarkUnschedulable n0 := rfl
  rw [e7]
  cases h8 : env.drainPods with
  | error e =>
    have g : getPodsForDeletion env (afterMarkUnschedulable n0) =
        ([⟨.drainGetPodsForDeletion env.node, some e, afterMarkUnschedulable n0⟩],
          .error (.failedGetPodList e)) := by
      simp [getPodsForDeletion, h8]
    rw [g]
    simpa using hList e h1 h2 h3 h4 h5 h6 h7 h8
  | ok l =>
  have g : getPodsForDeletion env (afterMarkUnschedulable n0) =
      ([⟨.drainGetPodsForDeletion env.node, none, afterMarkUnschedulable n0⟩],
        .ok (k8sutil.FilterPods l (fun p => if p.Namespace = "kube-system" then false else true))) := by
    simp [getPodsForDeletion, h8]
  have g2 := congrArg Prod.snd g
  simp only [] at g2
  rw [g]
  simp only []
  have t8 : traceMarkInProgress env n0 ++
        [⟨.unschedulable env.node true, none, afterMarkUnschedulable n0⟩] ++
        [⟨.drainGetPodsForDeletion env.node, none, afterMarkUnschedulable n0⟩]
      = traceListed env n0 := by
    simp [traceListed]
  rw [t8]
  cases h9 : (deletePods env (afterMarkUnschedulable n0) 0
      (k8sutil.FilterPods l (fun p => if p.Namespace = "kube-system" then false else true))).2 with
  | err e => simpa using hDelete _ _ h1 h2 h3 h4 h5 h6 h7 g2 h9 (by simp)
  | panic m => simpa using hDelete _ _ h1 h2 h3 h4 h5 h6 h7 g2 h9 (by simp)
  | blocked => simpa using hDelete _ _ h1 h2 h3 h4 h5 h6 h7 g2 h9 (by simp)
  | nil => simpa using hReboot _ h1 h2 h3 h4 h5 h6 h7 g2 h9

end klocksmith

/-! ## Trace lemmas -/

namespace klocksmith

theorem precedes_of_forall_not {P Q : Step → Prop} {t : List Step}
    (h : ∀ s ∈ t, ¬ Q s) : Precedes P Q t := by
  intro pre st post ht hq
  exact absurd hq (h st (by simp [ht]))

theorem precedes_append_of_mem {P Q : Step → Prop} {a : List Step} (x : List Step)
    (hq : ∀ s ∈ a, ¬ Q s) (hp : ∃ s ∈ a, P s) : Precedes P Q (a ++ x) := by
  intro pre st post ht hst
  obtain ⟨s, hs, hps⟩ := hp
  rcases List.append_eq_append_iff.mp ht with ⟨c, hc, -⟩ | ⟨c, hc, hx⟩
  · exact ⟨s, by simp [hc, hs], hps⟩
  · cases c with
    | nil =>
      simp only [List.append_nil] at hc
      exact ⟨s, hc ▸ hs, hps⟩
    | cons d c =>
      simp only [List.cons_append, List.cons.injEq] at hx
      have : st ∈ a := by rw [hc, ← hx.1]; simp
      exact absurd hst (hq st this)

theorem split_at_unique {Q : Step → Prop} {a b pre post : List Step} {r st : Step}
    (h : a ++ r :: b = pre ++ st :: post) (ha : ∀ s ∈ a, ¬ Q s) (hb : ∀ s ∈ b, ¬ Q s)
    (hst : Q st) : pre = a ∧ st = r ∧ post = b := by
  rcases List.append_eq_append_iff.mp h with ⟨c, hc, hx⟩ | ⟨c, hc, hx⟩
  · cases c with
    | nil => simp at hc hx; obtain ⟨h1, h2⟩ := hx; exact ⟨hc, h1.symm, h2.symm⟩
    | cons d c =>
      simp only [List.cons_append, List.cons.injEq] at hx
      have : st ∈ b := by rw [hx.2]; simp
      exact absurd hst (hb st this)
  · cases c with
    | nil => simp at hc hx; obtain ⟨h1, h2⟩ := hx; exact ⟨hc.symm, h1, h2⟩
    | cons d c =>
      simp only [List.cons_append, List.cons.injEq] at hx
      have : st ∈ a := by rw [hc, ← hx.1]; simp
      exact absurd hst (ha st this)

theorem mem_dropLast_append {α : Type} {a b : List α} {s : α}
    (h : s ∈ (a ++ b).dropLast) : s ∈ a ∨ s ∈ b.dropLast := by
  cases b with
  | nil => left; simpa using List.mem_of_mem_dropLast h
  | cons x b =>
    rw [List.dropLast_append_of_ne_nil _ (by simp)] at h
    simpa using h

theorem dropLast_split {α : Type} {P : α → Prop} {t : List α}
    (h : ∀ s ∈ t.dropLast, P s) {pre : List α} {st : α} {post : List α}
    (ht : t = pre ++ st :: post) (hst : ¬ P st) : post = [] := by
  subst ht
  cases post with
  | nil => rfl
  | cons a post =>
    exfalso
    apply hst
    apply h
    rw [List.dropLast_append_of_ne_nil _ (by simp)]
    simp [List.dropLast]

/-- Every call of `waitForRebootSignal` is a status read or the signal
subscription, and leaves the node alone. -/
theorem waitForRebootSignal_steps (env : Env) (n : Node) :
    ∀ s ∈ (waitForRebootSignal env n).1,
      (s.call = .getStatus ∨ s.call = .rebootNeededSignal) ∧ s.node = n := by
  unfold waitForRebootSignal
  cases env.getStatus with
  | error e => simp
  | ok op =>
    simp only []
    split
    · split <;> simp
    · simp

theorem waitForRebootSignal_nil (env : Env) (n : Node)
    (h : (waitForRebootSignal env n).2 = .nil) :
    ∀ s ∈ (waitForRebootSignal env n).1, s.err = none := by
  revert h
  unfold waitForRebootSignal
  cases env.getStatus with
  | error e => simp
  | ok op =>
    simp only []
    split
    · split <;> simp
    · simp

theorem waitForRebootSignal_dropLast (env : Env) (n : Node) :
    ∀ s ∈ (waitForRebootSignal env n).1.dropLast, s.err = none := by
  unfold waitForRebootSignal
  cases env.getStatus with
  | error e => simp
  | ok op =>
    simp only []
    split
    · split <;> simp [List.dropLast]
    · simp

theorem waitForRebootSignal_err (env : Env) (n : Node) :
    ∀ s ∈ (waitForRebootSignal env n).1, s.err ≠ none →
      ∃ e, (waitForRebootSignal env n).2 = .err e := by
  unfold waitForRebootSignal
  cases env.getStatus with
  | error e => simp
  | ok op =>
    simp only []
    split
    · split <;> simp
    · simp

/-- Every call of `waitForOkToReboot` is a read or watch of the node, and leaves
the node alone. -/
theorem waitForOkToReboot_steps (env : Env) (n : Node) :
    ∀ s ∈ (waitForOkToReboot env n).1, s.call.isApprovalWait = true ∧ s.node = n := by
  unfold waitForOkToReboot
  cases env.nodeGet with
  | error e => simp [Call.isApprovalWait]
  | ok nv =>
    obtain ⟨name, rv⟩ := nv
    simp only []
    cases env.nodeWatch with
    | some e => simp [Call.isApprovalWait]
    | none =>
      simp only []
      cases env.watchUntil with
      | error e => simp [Call.isApprovalWait]
      | ok obj =>
        cases obj with
        | other => simp [Call.isApprovalWait]
        | node no =>
          simp only []
          split <;> simp [Call.isApprovalWait]

theorem waitForOkToReboot_nil (env : Env) (n : Node)
    (h : (waitForOkToReboot env n).2 = .nil) :
    (∀ s ∈ (waitForOkToReboot env n).1, s.err = none) ∧
    (∃ s ∈ (waitForOkToReboot env n).1,
      s.call = .watchUntil 24 labelOkToReboot "true" ∧ s.err = none) ∧
    ∃ no, env.watchUntil = .ok (.node no) ∧ no.Labels labelOkToReboot = some "true" := by
  revert h
  unfold waitForOkToReboot
  cases env.nodeGet with
  | error e => simp
  | ok nv =>
    obtain ⟨name, rv⟩ := nv
    simp only []
    cases env.nodeWatch with
    | some e => simp
    | none =>
      simp only []
      cases env.watchUntil with
      | error e => simp
      | ok obj =>
        cases obj with
        | other => simp
        | node no =>
          simp only []
          split
          · simp
          · rename_i hl
            intro _
            refine ⟨by simp, by simp, ?_⟩
            simp only [LabelMap.index, bne_iff_ne, ne_eq, not_not] at hl
            cases hv : no.Labels labelOkToReboot with
            | none => rw [hv] at hl; simp at hl
            | some v => rw [hv] at hl; simp at hl; exact ⟨no, rfl, by rw [hv, hl]⟩

theorem waitForOkToReboot_dropLast (env : Env) (n : Node) :
    ∀ s ∈ (waitForOkToReboot env n).1.dropLast, s.err = none := by
  unfold waitForOkToReboot
  cases env.nodeGet with
  | error e => simp
  | ok nv =>
    obtain ⟨name, rv⟩ := nv
    simp only []
    cases env.nodeWatch with
    | some e => simp [List.dropLast]
    | none =>
      simp only []
      cases env.watchUntil with
      | error e => simp [List.dropLast]
      | ok obj =>
        cases obj with
        | other => simp [List.dropLast]
        | node no =>
          simp only []
          split <;> simp [List.dropLast]

theorem waitForOkToReboot_err (env : Env) (n : Node) :
    ∀ s ∈ (waitForOkToReboot env n).1, s.err ≠ none →
      ∃ e, (waitForOkToReboot env n).2 = .err e := by
  unfold waitForOkToReboot
  cases env.nodeGet with
  | error e => simp
  | ok nv =>
    obtain ⟨name, rv⟩ := nv
    simp only []
    cases env.nodeWatch with
    | some e => simp
    | none =>
      simp only []
      cases env.watchUntil with
      | error e => simp
      | ok obj =>
        cases obj with
        | other => simp
        | node no =>
          simp only []
          split <;> simp

/-- Every call of the deletion loop deletes a pod of the list, with a grace period
of 30 seconds, and leaves the node alone. -/
theorem deletePods_steps (env : Env) (n : Node) (pods : List Pod) (i : Nat) :
    ∀ s ∈ (deletePods env n i pods).1,
      (∃ p ∈ pods, s.call = .podDelete p.Namespace p.Name 30) ∧ s.node = n := by
  induction pods generalizing i with
  | nil => simp [deletePods]
  | cons p rest ih =>
    simp only [deletePods]
    cases env.podDelete i with
    | some e => simp
    | none =>
      simp only [List.mem_cons, forall_eq_or_imp, true_or, exists_eq_or_imp, and_true, true_and]
      intro s hs
      obtain ⟨⟨q, hq, hc⟩, hn⟩ := ih (i + 1) s hs
      exact ⟨Or.inr ⟨q, hq, hc⟩, hn⟩

theorem deletePods_dropLast (env : Env) (n : Node) (pods : List Pod) (i : Nat) :
    ∀ s ∈ (deletePods env n i pods).1.dropLast, s.err = none := by
  induction pods generalizing i with
  | nil => simp [deletePods]
  | cons p rest ih =>
    simp only [deletePods]
    cases h : env.podDelete i with
    | some e => simp
    | none =>
      simp only
      intro s hs
      cases hr : (deletePods env n (i + 1) rest).1 with
      | nil => rw [hr] at hs; simp at hs
      | cons a l =>
        rw [hr] at hs
        simp only [List.dropLast_cons₂, List.mem_cons] at hs
        rcases hs with rfl | hs
        · rfl
        · apply ih (i + 1); rw [hr]; exact hs

theorem deletePods_err (env : Env) (n : Node) (pods : List Pod) (i : Nat) :
    ∀ s ∈ (deletePods env n i pods).1, s.err ≠ none →
      ∃ e, (deletePods env n i pods).2 = .err e := by
  induction pods generalizing i with
  | nil => simp [deletePods]
  | cons p rest ih =>
    simp only [deletePods]
    cases h : env.podDelete i with
    | some e => simp
    | none =>
      simp only [List.mem_cons, forall_eq_or_imp, ne_eq, not_true_eq_false, false_implies, true_and]
      exact ih (i + 1)

/-- A deletion loop that returns `nil` has deleted every pod of the list, without
error. -/
theorem deletePods_nil (env : Env) (n : Node) (pods : List Pod) (i : Nat)
    (h : (deletePods env n i pods).2 = .nil) :
    (∀ s ∈ (deletePods env n i pods).1, s.err = none) ∧
    ∀ p ∈ pods, ∃ s ∈ (deletePods env n i pods).1,
      s.call = .podDelete p.Namespace p.Name 30 ∧ s.err = none := by
  induction pods generalizing i with
  | nil => simp [deletePods]
  | cons p rest ih =>
    revert h
    simp only [deletePods]
    cases env.podDelete i with
    | some e => simp
    | none =>
      simp only
      intro h
      obtain ⟨h1, h2⟩ := ih (i + 1) h
      refine ⟨by simpa using h1, ?_⟩
      intro q hq
      rcases List.mem_cons.mp hq with rfl | hq
      · exact ⟨_, List.mem_cons_self _ _, rfl, rfl⟩
      · obtain ⟨s, hs, hc⟩ := h2 q hq
        exact ⟨s, List.mem_cons_of_mem _ hs, hc⟩

/-- The deletion loop when the call for the pod at position `j` is the first to
fail: the pods before it are deleted, in order, and the loop stops there. -/
theorem deletePods_first_failure (env : Env) (n : Node) (pods : List Pod) (i j : Nat)
    (p : Pod) (e : String) (hp : pods.get? j = some p)
    (hok : ∀ m, m < j → env.podDelete (i + m) = none)
    (hfail : env.podDelete (i + j) = some e) :
    deletePods env n i pods =
      ((pods.take j).map (fun q => (⟨.podDelete q.Namespace q.Name 30, none, n⟩ : Step)) ++
        [⟨.podDelete p.Namespace p.Name 30, some e, n⟩],
        .err (.failedTerminatingPod p.Name e)) := by
  induction pods generalizing i j with
  | nil => simp at hp
  | cons q rest ih =>
    cases j with
    | zero =>
      simp only [List.get?_cons_zero, Option.some.injEq] at hp
      subst hp
      simp only [Nat.add_zero] at hfail
      simp [deletePods, hfail]
    | succ j =>
      simp only [List.get?_cons_succ] at hp
      have h0 : env.podDelete i = none := by simpa using hok 0 (Nat.succ_pos j)
      have hrest := ih (i + 1) j hp
        (fun m hm => by
          have := hok (m + 1) (Nat.succ_lt_succ hm)
          rwa [Nat.add_comm m 1, ← Nat.add_assoc] at this)
        (by rwa [Nat.add_comm j 1, ← Nat.add_assoc] at hfail)
      simp [deletePods, h0, hrest]

/-- What `waitForRebootSignal` returns does not depend on the node. -/
theorem waitForRebootSignal_ret (env : Env) (n m : Node) :
    (waitForRebootSignal env n).2 = (waitForRebootSignal env m).2 := by
  unfold waitForRebootSignal
  cases env.getStatus with
  | error e => rfl
  | ok op =>
    simp only []
    split
    · split <;> rfl
    · rfl

/-- What `waitForOkToReboot` returns does not depend on the node. -/
theorem waitForOkToReboot_ret (env : Env) (n m : Node) :
    (waitForOkToReboot env n).2 = (waitForOkToReboot env m).2 := by
  unfold waitForOkToReboot
  cases env.nodeGet with
  | error e => rfl
  | ok nv =>
    obtain ⟨name, rv⟩ := nv
    simp only []
    cases env.nodeWatch with
    | some e => rfl
    | none =>
      simp only []
      cases env.watchUntil with
      | error e => rfl
      | ok obj =>
        cases obj with
        | other => rfl
        | node no =>
          simp only []
          split <;> rfl

/-- What `getPodsForDeletion` returns does not depend on the node. -/
theorem getPodsForDeletion_ret (env : Env) (n m : Node) :
    (getPodsForDeletion env n).2 = (getPodsForDeletion env m).2 := by
  unfold getPodsForDeletion
  cases env.drainPods <;> rfl

/-- The steps of a run up to a successful Announce: all return without error, none
is an approval-wait call, a pod deletion, the reboot or a patch of
`reboot-in-progress` to `"true"`, and `reboot-in-progress` is `"false"` throughout. -/
theorem traceAnnounce_steps (env : Env) (n0 : Node)
    (h3 : (waitForRebootSignal env (afterReset n0)).2 = .nil) :
    ∀ s ∈ traceAnnounce env n0,
      s.err = none ∧ s.call.isApprovalWait = false ∧ s.call.isPodDelete = false ∧
      s.call.isReboot = false ∧
      (∀ nd ls, s.call = .setNodeLabels nd ls → (labelRebootInProgress, "true") ∉ ls) ∧
      s.node.Labels labelRebootInProgress = some "false" := by
  intro s hs
  simp only [traceAnnounce, traceReset, List.mem_append, List.mem_cons, List.mem_singleton,
    List.not_mem_nil, or_false] at hs
  rcases hs with ((rfl | rfl) | hs) | rfl
  · simp [Call.isApprovalWait, Call.isPodDelete, Call.isReboot, setNodeLabels, mergeLabels,
      labelRebootInProgress, labelRebootNeeded]
  · simp [Call.isApprovalWait, Call.isPodDelete, Call.isReboot, setNodeLabels, mergeLabels,
      labelRebootInProgress, labelRebootNeeded, afterReset, unschedulable]
  · obtain ⟨hc, hn⟩ := waitForRebootSignal_steps env _ s hs
    have he := waitForRebootSignal_nil env _ h3 s hs
    rw [hn]
    rcases hc with hc | hc <;>
      simp [he, hc, Call.isApprovalWait, Call.isPodDelete, Call.isReboot, setNodeLabels,
        mergeLabels, labelRebootInProgress, labelRebootNeeded, afterReset, unschedulable]
  · simp [Call.isApprovalWait, Call.isPodDelete, Call.isReboot, setNodeLabels, mergeLabels,
      labelRebootInProgress, labelRebootNeeded, afterReset, unschedulable, afterAnnounce]

/-- The calls of a run before the MarkInProgress patch: none is a pod deletion or
the reboot, whatever the two waits return. -/
theorem early_calls (env : Env) (n0 m1 m2 : Node) :
    ∀ s ∈ traceReset env n0 ++ (waitForRebootSignal env m1).1 ++
        (waitForOkToReboot env m2).1,
      s.call.isPodDelete = false ∧ s.call.isReboot = false := by
  intro s hs
  simp only [traceReset, List.mem_append, List.mem_cons, List.mem_singleton,
    List.not_mem_nil, or_false] at hs
  rcases hs with ((rfl | rfl) | hs) | hs
  · simp [Call.isPodDelete, Call.isReboot]
  · simp [Call.isPodDelete, Call.isReboot]
  · rcases (waitForRebootSignal_steps env _ s hs).1 with hc | hc <;>
      simp [hc, Call.isPodDelete, Call.isReboot]
  · have hc := (waitForOkToReboot_steps env _ s hs).1
    revert hc
    cases s.call <;> simp [Call.isPodDelete, Call.isReboot, Call.isApprovalWait]

theorem traceAnnounce_calls (env : Env) (n0 : Node) :
    ∀ s ∈ traceAnnounce env n0, s.call.isPodDelete = false ∧ s.call.isReboot = false := by
  intro s hs
  simp only [traceAnnounce, List.mem_append, List.mem_singleton] at hs
  rcases hs with hs | rfl
  · exact early_calls env n0 _ n0 s (by simp only [List.mem_append]; exact Or.inl hs)
  · simp [Call.isPodDelete, Call.isReboot]

theorem traceMarkInProgress_calls (env : Env) (n0 : Node) :
    ∀ s ∈ traceMarkInProgress env n0,
      s.call.isPodDelete = false ∧ s.call.isReboot = false := by
  intro s hs
  simp only [traceMarkInProgress, List.mem_append, List.mem_singleton] at hs
  rcases hs with (hs | hs) | rfl
  · exact traceAnnounce_calls env n0 s hs
  · have hc := (waitForOkToReboot_steps env _ s hs).1
    revert hc
    cases s.call <;> simp [Call.isPodDelete, Call.isReboot, Call.isApprovalWait]
  · simp [Call.isPodDelete, Call.isReboot]

theorem traceListed_calls (env : Env) (n0 : Node) :
    ∀ s ∈ traceListed env n0, s.call.isPodDelete = false ∧ s.call.isReboot = false := by
  intro s hs
  simp only [traceListed, List.mem_append, List.mem_cons, List.mem_singleton,
    List.not_mem_nil, or_false] at hs
  rcases hs with hs | rfl | rfl
  · exact traceMarkInProgress_calls env n0 s hs
  · simp [Call.isPodDelete, Call.isReboot]
  · simp [Call.isPodDelete, Call.isReboot]

/-- Inventory of the steps of a run: a property that holds of each call `Run` can
issue, with the node that call leaves, holds of every step of every run. -/
theorem Run_forall_steps (env : Env) (n0 : Node) (R : Step → Prop)
    (h1 : ∀ e, R ⟨.setNodeLabels env.node
        [(labelRebootInProgress, "false"), (labelRebootNeeded, "false")], e,
        setNodeLabels e [(labelRebootInProgress, "false"), (labelRebootNeeded, "false")] n0⟩)
    (h2 : ∀ e, R ⟨.unschedulable env.node false, e, unschedulable e false
        (setNodeLabels none [(labelRebootInProgress, "false"), (labelRebootNeeded, "false")] n0)⟩)
    (h3 : ∀ c e, (c = .getStatus ∨ c = .rebootNeededSignal) → R ⟨c, e, afterReset n0⟩)
    (h4 : ∀ e, R ⟨.setNodeLabels env.node [(labelRebootNeeded, "true")], e,
        setNodeLabels e [(labelRebootNeeded, "true")] (afterReset n0)⟩)
    (h5 : ∀ c e, c.isApprovalWait = true → R ⟨c, e, afterAnnounce n0⟩)
    (h6 : ∀ e, R ⟨.setNodeLabels env.node [(labelRebootInProgress, "true")], e,
        setNodeLabels e [(labelRebootInProgress, "true")] (afterAnnounce n0)⟩)
    (h7 : ∀ e, R ⟨.unschedulable env.node true, e,
        unschedulable e true (afterMarkInProgress n0)⟩)
    (h8 : ∀ c e, (c = .drainGetPodsForDeletion env.node ∨ c.isPodDelete = true ∨
        c = .reboot false ∨ c = .sleep (24 * 7)) → R ⟨c, e, afterMarkUnschedulable n0⟩) :
    ∀ s ∈ (Run env n0).trace, R s := by
  have hW3 : ∀ s ∈ (waitForRebootSignal env (afterReset n0)).1, R s := by
    intro s hs
    obtain ⟨hc, hn⟩ := waitForRebootSignal_steps env _ s hs
    obtain ⟨c, e, n⟩ := s
    simp only at hc hn
    subst hn
    exact h3 c e hc
  have hW5 : ∀ s ∈ (waitForOkToReboot env (afterAnnounce n0)).1, R s := by
    intro s hs
    obtain ⟨hc, hn⟩ := waitForOkToReboot_steps env _ s hs
    obtain ⟨c, e, n⟩ := s
    simp only at hc hn
    subst hn
    exact h5 c e hc
  have hD : ∀ pods, ∀ s ∈ (deletePods env (afterMarkUnschedulable n0) 0 pods).1, R s := by
    intro pods s hs
    obtain ⟨⟨p, -, hc⟩, hn⟩ := deletePods_steps env _ pods 0 s hs
    obtain ⟨c, e, n⟩ := s
    simp only at hc hn
    subst hn
    exact h8 c e (Or.inr (Or.inl (by simp [hc, Call.isPodDelete])))
  have hR : ∀ s ∈ traceReset env n0, R s := by
    intro s hs
    simp only [traceReset, List.mem_cons, List.mem_singleton, List.not_mem_nil, or_false] at hs
    rcases hs with rfl | rfl
    · exact h1 none
    · exact h2 none
  have hA : ∀ s ∈ traceAnnounce env n0, R s := by
    intro s hs
    simp only [traceAnnounce, List.mem_append, List.mem_singleton] at hs
    rcases hs with (hs | hs) | rfl
    · exact hR s hs
    · exact hW3 s hs
    · exact h4 none
  have hM : ∀ s ∈ traceMarkInProgress env n0, R s := by
    intro s hs
    simp only [traceMarkInProgress, List.mem_append, List.mem_singleton] at hs
    rcases hs with (hs | hs) | rfl
    · exact hA s hs
    · exact hW5 s hs
    · exact h6 none
  have hL : ∀ s ∈ traceListed env n0, R s := by
    intro s hs
    simp only [traceListed, List.mem_append, List.mem_cons, List.mem_singleton,
      List.not_mem_nil, or_false] at hs
    rcases hs with hs | rfl | rfl
    · exact hM s hs
    · exact h7 none
    · exact h8 _ _ (Or.inl rfl)
  refine Run_elim env n0 (fun x => ∀ s ∈ x.trace, R s) ?_ ?_ ?_ ?_ ?_ ?_ ?_ ?_ ?_ ?_
  · intro e _ s hs
    simp only [List.mem_singleton] at hs
    subst hs
    exact h1 (some e)
  · intro e _ _ s hs
    simp only [List.mem_cons, List.mem_singleton, List.not_mem_nil, or_false] at hs
    rcases hs with rfl | rfl
    · exact h1 none
    · exact h2 (some e)
  · intro r _ _ _ _ s hs
    simp only [List.mem_append] at hs
    rcases hs with hs | hs
    · exact hR s hs
    · exact hW3 s hs
  · intro e _ _ _ _ s hs
    simp only [List.mem_append, List.mem_singleton] at hs
    rcases hs with (hs | hs) | rfl
    · exact hR s hs
    · exact hW3 s hs
    · exact h4 (some e)
  · intro r _ _ _ _ _ _ s hs
    simp only [List.mem_append] at hs
    rcases hs with hs | hs
    · exact hA s hs
    · exact hW5 s hs
  · intro e _ _ _ _ _ _ s hs
    simp only [List.mem_append, List.mem_singleton] at hs
    rcases hs with (hs | hs) | rfl
    · exact hA s hs
    · exact hW5 s hs
    · exact h6 (some e)
  · intro e _ _ _ _ _ _ _ s hs
    simp only [List.mem_append, List.mem_singleton] at hs
    rcases hs with hs | rfl
    · exact hM s hs
    · exact h7 (some e)
  · intro e _ _ _ _ _ _ _ _ s hs
    simp only [List.mem_append, List.mem_cons, List.mem_singleton, List.not_mem_nil,
      or_false] at hs
    rcases hs with hs | rfl | rfl
    · exact hM s hs
    · exact h7 none
    · exact h8 _ _ (Or.inl rfl)
  · intro pods r _ _ _ _ _ _ _ _ _ _ s hs
    simp only [List.mem_append] at hs
    rcases hs with hs | hs
    · exact hL s hs
    · exact hD pods s hs
  · intro pods _ _ _ _ _ _ _ _ _ s hs
    simp only [List.mem_append, List.mem_cons, List.mem_singleton, List.not_mem_nil,
      or_false] at hs
    rcases hs with (hs | hs) | rfl | rfl
    · exact hL s hs
    · exact hD pods s hs
    · exact h8 _ _ (Or.inr (Or.inr (Or.inl rfl)))
    · exact h8 _ _ (Or.inr (Or.inr (Or.inr rfl)))

/-- Case analysis of `Run` around the drain: the run stops before any pod is
deleted, stops in the deletion loop, or goes through to the reboot. -/
theorem Run_elim_drain (env : Env) (n0 : Node) (motive : Exec → Prop)
    (hEarly : ∀ t r, (∀ s ∈ t, s.call.isPodDelete = false ∧ s.call.isReboot = false) →
      motive ⟨t, r⟩)
    (hDelete : ∀ pods r,
      (waitForRebootSignal env (afterReset n0)).2 = .nil →
      (waitForOkToReboot env (afterAnnounce n0)).2 = .nil →
      (getPodsForDeletion env (afterMarkUnschedulable n0)).2 = .ok pods →
      (deletePods env (afterMarkUnschedulable n0) 0 pods).2 = r → r ≠ .nil →
      motive ⟨traceListed env n0 ++ (deletePods env (afterMarkUnschedulable n0) 0 pods).1, r⟩)
    (hReboot : ∀ pods,
      (waitForRebootSignal env (afterReset n0)).2 = .nil →
      (waitForOkToReboot env (afterAnnounce n0)).2 = .nil →
      (getPodsForDeletion env (afterMarkUnschedulable n0)).2 = .ok pods →
      (deletePods env (afterMarkUnschedulable n0) 0 pods).2 = .nil →
      motive ⟨traceListed env n0 ++ (deletePods env (afterMarkUnschedulable n0) 0 pods).1 ++
        [⟨.reboot false, none, afterMarkUnschedulable n0⟩,
          ⟨.sleep (24 * 7), none, afterMarkUnschedulable n0⟩], .nil⟩) :
    motive (Run env n0) := by
  refine Run_elim env n0 motive ?_ ?_ ?_ ?_ ?_ ?_ ?_ ?_ ?_ ?_
  · intro e _
    exact hEarly _ _ (by simp [Call.isPodDelete, Call.isReboot])
  · intro e _ _
    exact hEarly _ _ (by simp [Call.isPodDelete, Call.isReboot])
  · intro r _ _ _ _
    apply hEarly
    intro s hs
    exact early_calls env n0 _ n0 s (by
      simp only [List.mem_append] at hs ⊢; exact Or.inl hs)
  · intro e _ _ _ _
    apply hEarly
    intro s hs
    simp only [List.mem_append, List.mem_singleton] at hs
    rcases hs with hs | rfl
    · exact early_calls env n0 _ n0 s (by
        simp only [List.mem_append] at hs ⊢; exact Or.inl hs)
    · simp [Call.isPodDelete, Call.isReboot]
  · intro r _ _ _ _ _ _
    apply hEarly
    intro s hs
    exact traceMarkInProgress_calls env n0 s (by
      simp only [traceMarkInProgress, List.mem_append] at hs ⊢; exact Or.inl hs)
  · intro e _ _ _ _ _ _
    apply hEarly
    intro s hs
    simp only [List.mem_append, List.mem_singleton] at hs
    rcases hs with hs | rfl
    · exact traceMarkInProgress_calls env n0 s (by
        simp only [traceMarkInProgress, List.mem_append] at hs ⊢; exact Or.inl hs)
    · simp [Call.isPodDelete, Call.isReboot]
  · intro e _ _ _ _ _ _ _
    apply hEarly
    intro s hs
    simp only [List.mem_append, List.mem_singleton] at hs
    rcases hs with hs | rfl
    · exact traceMarkInProgress_calls env n0 s hs
    · simp [Call.isPodDelete, Call.isReboot]
  · intro e _ _ _ _ _ _ _ _
    apply hEarly
    intro s hs
    simp only [List.mem_append, List.mem_cons, List.mem_singleton, List.not_mem_nil,
      or_false] at hs
    rcases hs with hs | rfl | rfl
    · exact traceMarkInProgress_calls env n0 s hs
    · simp [Call.isPodDelete, Call.isReboot]
    · simp [Call.isPodDelete, Call.isReboot]
  · intro pods r _ _ h3 _ h5 _ _ h8 h9 hr
    exact hDelete pods r h3 h5 h8 h9 hr
  · intro pods _ _ h3 _ h5 _ _ h8 h9
    exact hReboot pods h3 h5 h8 h9

theorem traceListed_ok (env : Env) (n0 : Node)
    (h3 : (waitForRebootSignal env (afterReset n0)).2 = .nil)
    (h5 : (waitForOkToReboot env (afterAnnounce n0)).2 = .nil) :
    ∀ s ∈ traceListed env n0, s.err = none := by
  intro s hs
  simp only [traceListed, traceMarkInProgress, List.mem_append, List.mem_cons,
    List.mem_singleton, List.not_mem_nil, or_false] at hs
  rcases hs with ((hs | hs) | rfl) | rfl | rfl
  · exact (traceAnnounce_steps env n0 h3 s hs).1
  · exact (waitForOkToReboot_nil env _ h5).1 s hs
  · rfl
  · rfl
  · rfl

/-- C1: in every execution of `Run`, when the reboot sink is invoked the node has
been marked unschedulable by a call that returned without error, a `Delete` call
has returned without error for every pod returned by `getPodsForDeletion`, and no
earlier step has returned an error. -/
theorem reboot_only_after_drain (env : Env) (n0 : Node) (pre : List Step) (st : Step)
    (post : List Step) (h : (Run env n0).trace = pre ++ st :: post)
    (hst : st.call.isReboot = true) :
    (∃ s ∈ pre, s.call = .unschedulable env.node true ∧ s.err = none ∧
      s.node.Unschedulable = true) ∧
    (∃ pods, (getPodsForDeletion env st.node).2 = .ok pods ∧
      ∀ p ∈ pods, ∃ s ∈ pre, s.call = .podDelete p.Namespace p.Name 30 ∧ s.err = none) ∧
    (∀ s ∈ pre, s.err = none) ∧
    st.node.Unschedulable = true := by
  revert pre st post
  refine Run_elim_drain env n0 (fun x => ∀ pre st post, x.trace = pre ++ st :: post →
    st.call.isReboot = true →
    (∃ s ∈ pre, s.call = .unschedulable env.node true ∧ s.err = none ∧
      s.node.Unschedulable = true) ∧
    (∃ pods, (getPodsForDeletion env st.node).2 = .ok pods ∧
      ∀ p ∈ pods, ∃ s ∈ pre, s.call = .podDelete p.Namespace p.Name 30 ∧ s.err = none) ∧
    (∀ s ∈ pre, s.err = none) ∧
    st.node.Unschedulable = true) ?_ ?_ ?_
  · intro t r ht pre st post h hst
    have := (ht st (by simp [show t = pre ++ st :: post from h])).2
    simp [this] at hst
  · intro pods r _ _ _ _ _ pre st post h hst
    have hm : st ∈ traceListed env n0 ++ (deletePods env (afterMarkUnschedulable n0) 0 pods).1 := by
      rw [show traceListed env n0 ++ (deletePods env (afterMarkUnschedulable n0) 0 pods).1
        = pre ++ st :: post from h]
      simp
    rcases List.mem_append.mp hm with hm | hm
    · simp [(traceListed_calls env n0 st hm).2] at hst
    · obtain ⟨⟨p, -, hc⟩, -⟩ := deletePods_steps env _ pods 0 st hm
      simp [hc, Call.isReboot] at hst
  · intro pods h3 h5 h8 h9 pre st post h hst
    have hh : (traceListed env n0 ++ (deletePods env (afterMarkUnschedulable n0) 0 pods).1) ++
        (⟨.reboot false, none, afterMarkUnschedulable n0⟩ : Step) ::
          [⟨.sleep (24 * 7), none, afterMarkUnschedulable n0⟩] = pre ++ st :: post := h
    have ha : ∀ s ∈ traceListed env n0 ++ (deletePods env (afterMarkUnschedulable n0) 0 pods).1,
        ¬ (s.call.isReboot = true) := by
      intro s hs
      rcases List.mem_append.mp hs with hs | hs
      · simp [(traceListed_calls env n0 s hs).2]
      · obtain ⟨⟨p, -, hc⟩, -⟩ := deletePods_steps env _ pods 0 s hs
        simp [hc, Call.isReboot]
    obtain ⟨rfl, rfl, rfl⟩ := split_at_unique (Q := fun s => s.call.isReboot = true) hh ha
      (by simp [Call.isReboot]) hst
    obtain ⟨hok, hall⟩ := deletePods_nil env _ pods 0 h9
    refine ⟨?_, ⟨pods, h8, ?_⟩, ?_, ?_⟩
    · refine ⟨⟨.unschedulable env.node true, none, afterMarkUnschedulable n0⟩, ?_, rfl, rfl, ?_⟩
      · simp [traceListed]
      · simp [afterMarkUnschedulable, unschedulable]
    · intro p hp
      obtain ⟨s, hs, hc⟩ := hall p hp
      exact ⟨s, List.mem_append_right _ hs, hc⟩
    · intro s hs
      rcases List.mem_append.mp hs with hs | hs
      · exact traceListed_ok env n0 h3 h5 s hs
      · exact hok s hs
    · simp [afterMarkUnschedulable, unschedulable]

/-- C1, at a concrete run: every collaborator succeeds and three pods are listed;
the reboot is the fourteenth call. -/
theorem reboot_only_after_drain_witness :
    (Run (envAllOk threePods) nodeFresh).trace =
      (Run (envAllOk threePods) nodeFresh).trace.take 13 ++
        ⟨.reboot false, none, afterMarkUnschedulable nodeFresh⟩ ::
          [⟨.sleep (24 * 7), none, afterMarkUnschedulable nodeFresh⟩] ∧
    (∃ s ∈ (Run (envAllOk threePods) nodeFresh).trace.take 13,
      s.call = .unschedulable "node-1" true ∧ s.err = none ∧ s.node.Unschedulable = true) ∧
    (∃ pods, (getPodsForDeletion (envAllOk threePods) (afterMarkUnschedulable nodeFresh)).2
        = .ok pods ∧
      ∀ p ∈ pods, ∃ s ∈ (Run (envAllOk threePods) nodeFresh).trace.take 13,
        s.call = .podDelete p.Namespace p.Name 30 ∧ s.err = none) ∧
    (∀ s ∈ (Run (envAllOk threePods) nodeFresh).trace.take 13, s.err = none) ∧
    (afterMarkUnschedulable nodeFresh).Unschedulable = true :=
  ⟨rfl, reboot_only_after_drain (envAllOk threePods) nodeFresh
    ((Run (envAllOk threePods) nodeFresh).trace.take 13)
    ⟨.reboot false, none, afterMarkUnschedulable nodeFresh⟩
    [⟨.sleep (24 * 7), none, afterMarkUnschedulable nodeFresh⟩] rfl rfl⟩

/-- C3: in every execution of `Run`, a pod `Delete` call is issued only after the
label patch `reboot-in-progress = "true"` has been issued and has returned without
error (the node then carries the label). -/
theorem delete_only_after_inProgress (env : Env) (n0 : Node) (pre : List Step) (st : Step)
    (post : List Step) (h : (Run env n0).trace = pre ++ st :: post)
    (hst : st.call.isPodDelete = true) :
    ∃ s ∈ pre, s.call = .setNodeLabels env.node [(labelRebootInProgress, "true")] ∧
      s.err = none ∧ s.node.Labels labelRebootInProgress = some "true" := by
  suffices hP : Precedes
      (fun s => s.call = .setNodeLabels env.node [(labelRebootInProgress, "true")] ∧
        s.err = none ∧ s.node.Labels labelRebootInProgress = some "true")
      (fun s => s.call.isPodDelete = true) (Run env n0).trace from hP pre st post h hst
  have hL : ∀ x, Precedes
      (fun s => s.call = .setNodeLabels env.node [(labelRebootInProgress, "true")] ∧
        s.err = none ∧ s.node.Labels labelRebootInProgress = some "true")
      (fun s => s.call.isPodDelete = true) (traceListed env n0 ++ x) := by
    intro x
    apply precedes_append_of_mem
    · intro s hs
      simp [(traceListed_calls env n0 s hs).1]
    · refine ⟨⟨.setNodeLabels env.node [(labelRebootInProgress, "true")], none,
        afterMarkInProgress n0⟩, ?_, rfl, rfl, ?_⟩
      · simp [traceListed, traceMarkInProgress]
      · simp [afterMarkInProgress, setNodeLabels, mergeLabels]
  refine Run_elim_drain env n0 (fun x => Precedes _ _ x.trace) ?_ ?_ ?_
  · intro t r ht
    apply precedes_of_forall_not
    intro s hs
    simp [(ht s hs).1]
  · intro pods r _ _ _ _ _
    exact hL _
  · intro pods _ _ _ _
    simp only [List.append_assoc]
    exact hL _

/-- C3, at a concrete run: every collaborator succeeds and three pods are listed;
the first `Delete` is the eleventh call. -/
theorem delete_only_after_inProgress_witness :
    (Run (envAllOk threePods) nodeFresh).trace =
      (Run (envAllOk threePods) nodeFresh).trace.take 10 ++
        ⟨.podDelete "default" "web-1" 30, none, afterMarkUnschedulable nodeFresh⟩ ::
          (Run (envAllOk threePods) nodeFresh).trace.drop 11 ∧
    ∃ s ∈ (Run (envAllOk threePods) nodeFresh).trace.take 10,
      s.call = .setNodeLabels "node-1" [(labelRebootInProgress, "true")] ∧
        s.err = none ∧ s.node.Labels labelRebootInProgress = some "true" :=
  ⟨rfl, delete_only_after_inProgress (envAllOk threePods) nodeFresh
    ((Run (envAllOk threePods) nodeFresh).trace.take 10)
    ⟨.podDelete "default" "web-1" 30, none, afterMarkUnschedulable nodeFresh⟩
    ((Run (envAllOk threePods) nodeFresh).trace.drop 11) rfl rfl⟩

/-- Case analysis of `Run` around the approval wait: the run stops before the
MarkInProgress patch is issued, or the approval wait has returned `nil`. -/
theorem Run_elim_approval (env : Env) (n0 : Node) (motive : Exec → Prop)
    (hEarly : ∀ t r,
      (∀ s ∈ t, ∀ nd ls, s.call = .setNodeLabels nd ls →
        (labelRebootInProgress, "true") ∉ ls) → motive ⟨t, r⟩)
    (hLate : ∀ rest r,
      (waitForRebootSignal env (afterReset n0)).2 = .nil →
      (waitForOkToReboot env (afterAnnounce n0)).2 = .nil →
      motive ⟨traceAnnounce env n0 ++ (waitForOkToReboot env (afterAnnounce n0)).1 ++ rest, r⟩) :
    motive (Run env n0) := by
  have hne : (labelRebootInProgress, "true") ∉
      [(labelRebootInProgress, "false"), (labelRebootNeeded, "false")] := by decide
  have hne2 : (labelRebootInProgress, "true") ∉ [(labelRebootNeeded, "true")] := by decide
  have hR : ∀ s ∈ traceReset env n0, ∀ nd ls, s.call = .setNodeLabels nd ls →
      (labelRebootInProgress, "true") ∉ ls := by
    intro s hs nd ls hc
    simp only [traceReset, List.mem_cons, List.mem_singleton, List.not_mem_nil, or_false] at hs
    rcases hs with rfl | rfl
    · simp only [Call.setNodeLabels.injEq] at hc
      rw [← hc.2]; exact hne
    · simp at hc
  have hW3 : ∀ m, ∀ s ∈ (waitForRebootSignal env m).1, ∀ nd ls,
      s.call = .setNodeLabels nd ls → (labelRebootInProgress, "true") ∉ ls := by
    intro m s hs nd ls hc
    rcases (waitForRebootSignal_steps env m s hs).1 with h | h <;> simp [h] at hc
  have hW5 : ∀ m, ∀ s ∈ (waitForOkToReboot env m).1, ∀ nd ls,
      s.call = .setNodeLabels nd ls → (labelRebootInProgress, "true") ∉ ls := by
    intro m s hs nd ls hc
    have h := (waitForOkToReboot_steps env m s hs).1
    rw [hc] at h
    simp [Call.isApprovalWait] at h
  have hA : ∀ s ∈ traceAnnounce env n0, ∀ nd ls, s.call = .setNodeLabels nd ls →
      (labelRebootInProgress, "true") ∉ ls := by
    intro s hs nd ls hc
    simp only [traceAnnounce, List.mem_append, List.mem_singleton] at hs
    rcases hs with (hs | hs) | rfl
    · exact hR s hs nd ls hc
    · exact hW3 _ s hs nd ls hc
    · simp only [Call.setNodeLabels.injEq] at hc
      rw [← hc.2]; exact hne2
  refine Run_elim env n0 motive ?_ ?_ ?_ ?_ ?_ ?_ ?_ ?_ ?_ ?_
  · intro e _
    apply hEarly
    intro s hs nd ls hc
    simp only [List.mem_singleton] at hs
    subst hs
    simp only [Call.setNodeLabels.injEq] at hc
    rw [← hc.2]; exact hne
  · intro e _ _
    apply hEarly
    intro s hs nd ls hc
    simp only [List.mem_cons, List.mem_singleton, List.not_mem_nil, or_false] at hs
    rcases hs with rfl | rfl
    · simp only [Call.setNodeLabels.injEq] at hc
      rw [← hc.2]; exact hne
    · simp at hc
  · intro r _ _ _ _
    apply hEarly
    intro s hs
    rcases List.mem_append.mp hs with hs | hs
    · exact hR s hs
    · exact hW3 _ s hs
  · intro e _ _ _ _
    apply hEarly
    intro s hs nd ls hc
    simp only [List.mem_append, List.mem_singleton] at hs
    rcases hs with (hs | hs) | rfl
    · exact hR s hs nd ls hc
    · exact hW3 _ s hs nd ls hc
    · simp only [Call.setNodeLabels.injEq] at hc
      rw [← hc.2]; exact hne2
  · intro r _ _ _ _ _ _
    apply hEarly
    intro s hs
    rcases List.mem_append.mp hs with hs | hs
    · exact hA s hs
    · exact hW5 _ s hs
  · intro e _ _ h3 _ h5 _
    exact hLate _ _ h3 h5
  · intro e _ _ h3 _ h5 _ _
    have := hLate ([⟨.setNodeLabels env.node [(labelRebootInProgress, "true")], none,
      afterMarkInProgress n0⟩] ++
      [⟨.unschedulable env.node true, some e, afterMarkInProgress n0⟩])
      (.err (.collaborator e)) h3 h5
    simpa [traceMarkInProgress] using this
  · intro e _ _ h3 _ h5 _ _ _
    have := hLate ([⟨.setNodeLabels env.node [(labelRebootInProgress, "true")], none,
      afterMarkInProgress n0⟩] ++
      [⟨.unschedulable env.node true, none, afterMarkUnschedulable n0⟩,
        ⟨.drainGetPodsForDeletion env.node, some e, afterMarkUnschedulable n0⟩])
      (.err (.failedGetPodList e)) h3 h5
    simpa [traceMarkInProgress] using this
  · intro pods r _ _ h3 _ h5 _ _ _ _ _
    have := hLate ([⟨.setNodeLabels env.node [(labelRebootInProgress, "true")], none,
      afterMarkInProgress n0⟩] ++
      [⟨.unschedulable env.node true, none, afterMarkUnschedulable n0⟩,
        ⟨.drainGetPodsForDeletion env.node, none, afterMarkUnschedulable n0⟩] ++
      (deletePods env (afterMarkUnschedulable n0) 0 pods).1) r h3 h5
    simpa [traceListed, traceMarkInProgress] using this
  · intro pods _ _ h3 _ h5 _ _ _ _
    have := hLate ([⟨.setNodeLabels env.node [(labelRebootInProgress, "true")], none,
      afterMarkInProgress n0⟩] ++
      [⟨.unschedulable env.node true, none, afterMarkUnschedulable n0⟩,
        ⟨.drainGetPodsForDeletion env.node, none, afterMarkUnschedulable n0⟩] ++
      (deletePods env (afterMarkUnschedulable n0) 0 pods).1 ++
      [⟨.reboot false, none, afterMarkUnschedulable n0⟩,
        ⟨.sleep (24 * 7), none, afterMarkUnschedulable n0⟩]) .nil h3 h5
    simpa [traceListed, traceMarkInProgress] using this

/-- C2: in every execution of `Run`, the label patch `reboot-in-progress = "true"`
is issued only after `waitForOkToReboot` has returned `nil` (its watch having
returned without error); `waitForOkToReboot` returns `nil` only when the watch
yielded a node event whose labels map `ok-to-reboot` to `"true"`; and `Run` never
writes the `ok-to-reboot` label. -/
theorem inProgress_only_after_ok (env : Env) (n0 : Node) :
    (∀ pre st post nd ls, (Run env n0).trace = pre ++ st :: post →
      st.call = .setNodeLabels nd ls → (labelRebootInProgress, "true") ∈ ls →
      (waitForOkToReboot env st.node).2 = .nil ∧
      ∃ s ∈ pre, s.call = .watchUntil 24 labelOkToReboot "true" ∧ s.err = none) ∧
    (∀ m, (waitForOkToReboot env m).2 = .nil →
      ∃ no, env.watchUntil = .ok (.node no) ∧ no.Labels.index labelOkToReboot = "true") ∧
    (∀ s ∈ (Run env n0).trace,
      (∀ nd ls, s.call = .setNodeLabels nd ls → ∀ kv ∈ ls, kv.1 ≠ labelOkToReboot) ∧
      s.node.Labels labelOkToReboot = n0.Labels labelOkToReboot) := by
  refine ⟨?_, ?_, ?_⟩
  · refine Run_elim_approval env n0 (fun x => ∀ pre st post nd ls,
      x.trace = pre ++ st :: post →
      st.call = .setNodeLabels nd ls → (labelRebootInProgress, "true") ∈ ls →
      (waitForOkToReboot env st.node).2 = .nil ∧
      ∃ s ∈ pre, s.call = .watchUntil 24 labelOkToReboot "true" ∧ s.err = none) ?_ ?_
    · intro t r ht pre st post nd ls h hc hl
      exact absurd hl (ht st (by simp [show t = pre ++ st :: post from h]) nd ls hc)
    · intro rest r h3 h5 pre st post nd ls h hc hl
      refine ⟨by rw [waitForOkToReboot_ret env st.node (afterAnnounce n0)]; exact h5, ?_⟩
      have hP : Precedes
          (fun s => s.call = .watchUntil 24 labelOkToReboot "true" ∧ s.err = none)
          (fun s => ∃ nd ls, s.call = .setNodeLabels nd ls ∧
            (labelRebootInProgress, "true") ∈ ls)
          ((traceAnnounce env n0 ++ (waitForOkToReboot env (afterAnnounce n0)).1) ++ rest) := by
        apply precedes_append_of_mem
        · rintro s hs ⟨nd2, ls2, hc2, hl2⟩
          rcases List.mem_append.mp hs with hs | hs
          · exact (traceAnnounce_steps env n0 h3 s hs).2.2.2.2.1 nd2 ls2 hc2 hl2
          · have h := (waitForOkToReboot_steps env _ s hs).1
            rw [hc2] at h
            simp [Call.isApprovalWait] at h
        · obtain ⟨s, hs, hw⟩ := (waitForOkToReboot_nil env _ h5).2.1
          exact ⟨s, List.mem_append_right _ hs, hw⟩
      exact hP pre st post h ⟨nd, ls, hc, hl⟩
  · intro m hm
    obtain ⟨no, hw, hl⟩ := (waitForOkToReboot_nil env m hm).2.2
    exact ⟨no, hw, by simp [LabelMap.index, hl]⟩
  · apply Run_forall_steps
    · intro e
      cases e <;>
        (simp [setNodeLabels, mergeLabels, labelRebootInProgress, labelRebootNeeded,
          labelOkToReboot]
         rintro a b (⟨rfl, -⟩ | ⟨rfl, -⟩) <;> decide)
    · intro e
      cases e <;> simp [unschedulable, setNodeLabels, mergeLabels, labelRebootInProgress,
        labelRebootNeeded, labelOkToReboot]
    · rintro c e (rfl | rfl) <;>
        simp [afterReset, unschedulable, setNodeLabels, mergeLabels, labelRebootInProgress,
          labelRebootNeeded, labelOkToReboot]
    · intro e
      cases e <;> simp [afterReset, unschedulable, setNodeLabels, mergeLabels,
        labelRebootInProgress, labelRebootNeeded, labelOkToReboot]
    · intro c e hc
      refine ⟨?_, ?_⟩
      · intro nd ls h
        simp only at h
        subst h
        simp [Call.isApprovalWait] at hc
      · simp [afterAnnounce, afterReset, unschedulable, setNodeLabels, mergeLabels,
          labelRebootInProgress, labelRebootNeeded, labelOkToReboot]
    · intro e
      cases e <;> simp [afterAnnounce, afterReset, unschedulable, setNodeLabels, mergeLabels,
        labelRebootInProgress, labelRebootNeeded, labelOkToReboot]
    · intro e
      cases e <;> simp [afterMarkInProgress, afterAnnounce, afterReset, unschedulable,
        setNodeLabels, mergeLabels, labelRebootInProgress, labelRebootNeeded, labelOkToReboot]
    · intro c e hc
      refine ⟨?_, ?_⟩
      · intro nd ls h
        simp only at h
        subst h
        simp [Call.isPodDelete] at hc
      · simp [afterMarkUnschedulable, afterMarkInProgress, afterAnnounce, afterReset,
          unschedulable, setNodeLabels, mergeLabels, labelRebootInProgress, labelRebootNeeded,
          labelOkToReboot]

/-- C2, at a concrete run: every collaborator succeeds; the MarkInProgress patch is
the eighth call and the watch before it saw `ok-to-reboot = "true"`. -/
theorem inProgress_only_after_ok_witness :
    (Run (envAllOk threePods) nodeFresh).trace =
      (Run (envAllOk threePods) nodeFresh).trace.take 7 ++
        ⟨.setNodeLabels "node-1" [(labelRebootInProgress, "true")], none,
          afterMarkInProgress nodeFresh⟩ ::
          (Run (envAllOk threePods) nodeFresh).trace.drop 8 ∧
    ((waitForOkToReboot (envAllOk threePods) (afterMarkInProgress nodeFresh)).2 = .nil ∧
      ∃ s ∈ (Run (envAllOk threePods) nodeFresh).trace.take 7,
        s.call = .watchUntil 24 labelOkToReboot "true" ∧ s.err = none) ∧
    (∃ no, (envAllOk threePods).watchUntil = .ok (.node no) ∧
      no.Labels.index labelOkToReboot = "true") :=
  ⟨rfl,
    (inProgress_only_after_ok (envAllOk threePods) nodeFresh).1
      ((Run (envAllOk threePods) nodeFresh).trace.take 7)
      ⟨.setNodeLabels "node-1" [(labelRebootInProgress, "true")], none,
        afterMarkInProgress nodeFresh⟩
      ((Run (envAllOk threePods) nodeFresh).trace.drop 8) "node-1"
      [(labelRebootInProgress, "true")] rfl rfl (by decide),
    (inProgress_only_after_ok (envAllOk threePods) nodeFresh).2.1 nodeFresh rfl⟩

theorem mem_drop_two_of_split {t pre post : List Step} {st : Step}
    (h : t = pre ++ st :: post) (hpre : 2 ≤ pre.length) : st ∈ t.drop 2 := by
  subst h
  rw [List.drop_append_of_le_length hpre]
  simp

/-- Inventory of the steps of a run that follow the Reset step. -/
theorem Run_forall_steps_after_reset (env : Env) (n0 : Node) (R : Step → Prop)
    (h3 : ∀ c e, (c = .getStatus ∨ c = .rebootNeededSignal) → R ⟨c, e, afterReset n0⟩)
    (h4 : ∀ e, R ⟨.setNodeLabels env.node [(labelRebootNeeded, "true")], e,
        setNodeLabels e [(labelRebootNeeded, "true")] (afterReset n0)⟩)
    (h5 : ∀ c e, c.isApprovalWait = true → R ⟨c, e, afterAnnounce n0⟩)
    (h6 : ∀ e, R ⟨.setNodeLabels env.node [(labelRebootInProgress, "true")], e,
        setNodeLabels e [(labelRebootInProgress, "true")] (afterAnnounce n0)⟩)
    (h7 : ∀ e, R ⟨.unschedulable env.node true, e,
        unschedulable e true (afterMarkInProgress n0)⟩)
    (h8 : ∀ c e, (c = .drainGetPodsForDeletion env.node ∨ c.isPodDelete = true ∨
        c = .reboot false ∨ c = .sleep (24 * 7)) → R ⟨c, e, afterMarkUnschedulable n0⟩) :
    ∀ s ∈ (Run env n0).trace.drop 2, R s := by
  have hW3 : ∀ s ∈ (waitForRebootSignal env (afterReset n0)).1, R s := by
    intro s hs
    obtain ⟨hc, hn⟩ := waitForRebootSignal_steps env _ s hs
    obtain ⟨c, e, n⟩ := s
    simp only at hc hn
    subst hn
    exact h3 c e hc
  have hW5 : ∀ s ∈ (waitForOkToReboot env (afterAnnounce n0)).1, R s := by
    intro s hs
    obtain ⟨hc, hn⟩ := waitForOkToReboot_steps env _ s hs
    obtain ⟨c, e, n⟩ := s
    simp only at hc hn
    subst hn
    exact h5 c e hc
  have hD : ∀ pods, ∀ s ∈ (deletePods env (afterMarkUnschedulable n0) 0 pods).1, R s := by
    intro pods s hs
    obtain ⟨⟨p, -, hc⟩, hn⟩ := deletePods_steps env _ pods 0 s hs
    obtain ⟨c, e, n⟩ := s
    simp only at hc hn
    subst hn
    exact h8 c e (Or.inr (Or.inl (by simp [hc, Call.isPodDelete])))
  have hdrop : ∀ x : List Step, (traceReset env n0 ++ x).drop 2 = x := by
    intro x; simp [traceReset]
  have eA : ∀ x : List Step, traceAnnounce env n0 ++ x =
      traceReset env n0 ++ ((waitForRebootSignal env (afterReset n0)).1 ++
        [⟨.setNodeLabels env.node [(labelRebootNeeded, "true")], none, afterAnnounce n0⟩] ++ x) := by
    intro x; simp [traceAnnounce]
  have eM : ∀ x : List Step, traceMarkInProgress env n0 ++ x =
      traceReset env n0 ++ ((waitForRebootSignal env (afterReset n0)).1 ++
        [⟨.setNodeLabels env.node [(labelRebootNeeded, "true")], none, afterAnnounce n0⟩] ++
        (waitForOkToReboot env (afterAnnounce n0)).1 ++
        [⟨.setNodeLabels env.node [(labelRebootInProgress, "true")], none,
          afterMarkInProgress n0⟩] ++ x) := by
    intro x; simp [traceMarkInProgress, traceAnnounce]
  have eL : ∀ x : List Step, traceListed env n0 ++ x =
      traceReset env n0 ++ ((waitForRebootSignal env (afterReset n0)).1 ++
        [⟨.setNodeLabels env.node [(labelRebootNeeded, "true")], none, afterAnnounce n0⟩] ++
        (waitForOkToReboot env (afterAnnounce n0)).1 ++
        [⟨.setNodeLabels env.node [(labelRebootInProgress, "true")], none,
          afterMarkInProgress n0⟩] ++
        [⟨.unschedulable env.node true, none, afterMarkUnschedulable n0⟩,
          ⟨.drainGetPodsForDeletion env.node, none, afterMarkUnschedulable n0⟩] ++ x) := by
    intro x; simp [traceListed, traceMarkInProgress, traceAnnounce]
  refine Run_elim env n0 (fun x => ∀ s ∈ x.trace.drop 2, R s) ?_ ?_ ?_ ?_ ?_ ?_ ?_ ?_ ?_ ?_
  · intro e _ s hs
    simp at hs
  · intro e _ _ s hs
    simp at hs
  · intro r _ _ _ _ s hs
    simp only [hdrop] at hs
    exact hW3 s hs
  · intro e _ _ _ _ s hs
    simp only [List.append_assoc, hdrop, List.mem_append, List.mem_singleton] at hs
    rcases hs with hs | rfl
    · exact hW3 s hs
    · exact h4 (some e)
  · intro r _ _ _ _ _ _ s hs
    simp only [eA, hdrop, List.mem_append, List.mem_singleton] at hs
    rcases hs with (hs | rfl) | hs
    · exact hW3 s hs
    · exact h4 none
    · exact hW5 s hs
  · intro e _ _ _ _ _ _ s hs
    simp only [List.append_assoc, eA, hdrop, List.mem_append, List.mem_singleton] at hs
    rcases hs with hs | rfl | hs | rfl
    · exact hW3 s hs
    · exact h4 none
    · exact hW5 s hs
    · exact h6 (some e)
  · intro e _ _ _ _ _ _ _ s hs
    simp only [eM, hdrop, List.mem_append, List.mem_singleton] at hs
    rcases hs with (((hs | rfl) | hs) | rfl) | rfl
    · exact hW3 s hs
    · exact h4 none
    · exact hW5 s hs
    · exact h6 none
    · exact h7 (some e)
  · intro e _ _ _ _ _ _ _ _ s hs
    simp only [eM, hdrop, List.mem_append, List.mem_singleton, List.mem_cons,
      List.not_mem_nil, or_false] at hs
    rcases hs with (((hs | rfl) | hs) | rfl) | rfl | rfl
    · exact hW3 s hs
    · exact h4 none
    · exact hW5 s hs
    · exact h6 none
    · exact h7 none
    · exact h8 _ _ (Or.inl rfl)
  · intro pods r _ _ _ _ _ _ _ _ _ _ s hs
    simp only [eL, hdrop, List.mem_append, List.mem_singleton, List.mem_cons,
      List.not_mem_nil, or_false] at hs
    rcases hs with ((((hs | rfl) | hs) | rfl) | rfl | rfl) | hs
    · exact hW3 s hs
    · exact h4 none
    · exact hW5 s hs
    · exact h6 none
    · exact h7 none
    · exact h8 _ _ (Or.inl rfl)
    · exact hD pods s hs
  · intro pods _ _ _ _ _ _ _ _ _ s hs
    simp only [List.append_assoc, eL, hdrop, List.mem_append, List.mem_singleton,
      List.mem_cons, List.not_mem_nil, or_false] at hs
    rcases hs with hs | rfl | hs | rfl | (rfl | rfl) | hs | rfl | rfl
    · exact hW3 s hs
    · exact h4 none
    · exact hW5 s hs
    · exact h6 none
    · exact h7 none
    · exact h8 _ _ (Or.inl rfl)
    · exact hD pods s hs
    · exact h8 _ _ (Or.inr (Or.inr (Or.inl rfl)))
    · exact h8 _ _ (Or.inr (Or.inr (Or.inr rfl)))

/-- C4, as stated, fails: in the run where every collaborator succeeds, the node
left by the MarkInProgress patch (the eighth call) carries
`reboot-in-progress = "true"` and is still schedulable. -/
theorem inProgress_implies_unschedulable_fails :
    ¬ (∀ (env : Env) (n0 : Node) (pre : List Step) (st : Step) (post : List Step),
        (Run env n0).trace = pre ++ st :: post → 2 ≤ pre.length →
        st.node.Labels.index labelRebootInProgress = "true" →
        st.node.Unschedulable = true) := by
  intro h
  have := h (envAllOk threePods) nodeFresh
    ((Run (envAllOk threePods) nodeFresh).trace.take 7)
    ⟨.setNodeLabels "node-1" [(labelRebootInProgress, "true")], none,
      afterMarkInProgress nodeFresh⟩
    ((Run (envAllOk threePods) nodeFresh).trace.drop 8) rfl (by decide) (by decide)
  revert this
  decide

/-- C4, amended: at every point of every execution of `Run` after the Reset step,
if the node carries `reboot-in-progress = "true"` then the node is marked
unschedulable, unless the point is the return of the MarkInProgress patch itself
or of a failed `unschedulable(true)` call. -/
theorem inProgress_unschedulable_once_marked (env : Env) (n0 : Node) (pre : List Step)
    (st : Step) (post : List Step) (h : (Run env n0).trace = pre ++ st :: post)
    (hpre : 2 ≤ pre.length)
    (hl : st.node.Labels.index labelRebootInProgress = "true") :
    st.node.Unschedulable = true ∨
    (st.call = .setNodeLabels env.node [(labelRebootInProgress, "true")] ∧ st.err = none) ∨
    (st.call = .unschedulable env.node true ∧ st.err ≠ none) := by
  have hm := mem_drop_two_of_split h hpre
  revert hl
  refine Run_forall_steps_after_reset env n0 (fun s =>
    s.node.Labels.index labelRebootInProgress = "true" →
    s.node.Unschedulable = true ∨
    (s.call = .setNodeLabels env.node [(labelRebootInProgress, "true")] ∧ s.err = none) ∨
    (s.call = .unschedulable env.node true ∧ s.err ≠ none)) ?_ ?_ ?_ ?_ ?_ ?_ st hm
  · intro c e _
    simp [LabelMap.index, afterReset, unschedulable, setNodeLabels, mergeLabels,
      labelRebootInProgress, labelRebootNeeded]
  · intro e
    cases e <;> simp [LabelMap.index, afterReset, unschedulable, setNodeLabels, mergeLabels,
      labelRebootInProgress, labelRebootNeeded]
  · intro c e _
    simp [LabelMap.index, afterAnnounce, afterReset, unschedulable, setNodeLabels, mergeLabels,
      labelRebootInProgress, labelRebootNeeded]
  · intro e
    cases e <;> simp [LabelMap.index, afterAnnounce, afterReset, unschedulable, setNodeLabels,
      mergeLabels, labelRebootInProgress, labelRebootNeeded]
  · intro e
    cases e <;> simp [unschedulable]
  · intro c e _
    simp [afterMarkUnschedulable, unschedulable]

/-- C4 amended, at a concrete run: the step after the MarkInProgress patch is the
successful `unschedulable(true)` call, and there the node is unschedulable. -/
theorem inProgress_unschedulable_once_marked_witness :
    (Run (envAllOk threePods) nodeFresh).trace =
      (Run (envAllOk threePods) nodeFresh).trace.take 8 ++
        ⟨.unschedulable "node-1" true, none, afterMarkUnschedulable nodeFresh⟩ ::
          (Run (envAllOk threePods) nodeFresh).trace.drop 9 ∧
    2 ≤ ((Run (envAllOk threePods) nodeFresh).trace.take 8).length ∧
    (afterMarkUnschedulable nodeFresh).Labels.index labelRebootInProgress = "true" ∧
    ((afterMarkUnschedulable nodeFresh).Unschedulable = true ∨
      ((Call.unschedulable "node-1" true =
          .setNodeLabels "node-1" [(labelRebootInProgress, "true")]) ∧
        (none : Option String) = none) ∨
      ((Call.unschedulable "node-1" true = .unschedulable "node-1" true) ∧
        (none : Option String) ≠ none)) :=
  ⟨rfl, by decide, by decide,
    inProgress_unschedulable_once_marked (envAllOk threePods) nodeFresh
      ((Run (envAllOk threePods) nodeFresh).trace.take 8)
      ⟨.unschedulable "node-1" true, none, afterMarkUnschedulable nodeFresh⟩
      ((Run (envAllOk threePods) nodeFresh).trace.drop 9) rfl (by decide) (by decide)⟩

/-- C7: for every list `L` returned by the drain collaborator,
`getPodsForDeletion` returns exactly the pods of `L` whose namespace is not
`"kube-system"`, in the order of `L`; the result holds no pod of the system namespace
and, when `L` holds no bare or mirror pod, holds none either. In
scenario C (a mirror pod, a `kube-system` pod and a controller-owned pod in
`default`) the result is exactly the `default` pod. -/
theorem getPodsForDeletion_filters (env : Env) (n : Node) (L : List Pod)
    (h : env.drainPods = .ok L) :
    ∃ result, (getPodsForDeletion env n).2 = .ok result ∧
      result = L.filter (fun p => decide (p.Namespace ≠ "kube-system")) ∧
      (∀ p, p ∈ result ↔ p ∈ L ∧ p.Namespace ≠ "kube-system") ∧
      result.Sublist L ∧
      (∀ p ∈ result, p.Namespace ≠ "kube-system") ∧
      ((∀ p ∈ L, p.owner = .controller) → ∀ p ∈ result, p.owner = .controller) ∧
      (getPodsForDeletion envScenarioC n).2 = .ok [⟨"web-1", "default", .controller⟩] := by
  have hf : (fun p : Pod => if p.Namespace = "kube-system" then false else true) =
      (fun p => decide (p.Namespace ≠ "kube-system")) := by
    funext p
    by_cases hp : p.Namespace = "kube-system" <;> simp [hp]
  refine ⟨L.filter (fun p => decide (p.Namespace ≠ "kube-system")), ?_, rfl, ?_, ?_, ?_, ?_, ?_⟩
  · simp only [getPodsForDeletion, h, k8sutil.FilterPods, hf]
  · intro p
    simp [List.mem_filter]
  · exact List.filter_sublist _
  · intro p hp
    simpa using (List.mem_filter.mp hp).2
  · intro hL p hp
    exact hL p (List.mem_filter.mp hp).1
  · rfl

/-- C7, in scenario C: the drain listing drops the mirror pod, and
`getPodsForDeletion` then drops the `kube-system` pod. -/
theorem getPodsForDeletion_filters_witness :
    envScenarioC.drainPods =
      .ok [⟨"kube-dns-v20", "kube-system", .controller⟩, ⟨"web-1", "default", .controller⟩] ∧
    ∃ result, (getPodsForDeletion envScenarioC nodeFresh).2 = .ok result ∧
      result = ([⟨"kube-dns-v20", "kube-system", .controller⟩,
        ⟨"web-1", "default", .controller⟩] : List Pod).filter
          (fun p => decide (p.Namespace ≠ "kube-system")) ∧
      (∀ p, p ∈ result ↔ p ∈ ([⟨"kube-dns-v20", "kube-system", .controller⟩,
        ⟨"web-1", "default", .controller⟩] : List Pod) ∧ p.Namespace ≠ "kube-system") ∧
      result.Sublist [⟨"kube-dns-v20", "kube-system", .controller⟩,
        ⟨"web-1", "default", .controller⟩] ∧
      (∀ p ∈ result, p.Namespace ≠ "kube-system") ∧
      ((∀ p ∈ ([⟨"kube-dns-v20", "kube-system", .controller⟩,
        ⟨"web-1", "default", .controller⟩] : List Pod), p.owner = .controller) →
        ∀ p ∈ result, p.owner = .controller) ∧
      (getPodsForDeletion envScenarioC nodeFresh).2 =
        .ok [⟨"web-1", "default", .controller⟩] :=
  ⟨rfl, getPodsForDeletion_filters envScenarioC nodeFresh
    [⟨"kube-dns-v20", "kube-system", .controller⟩, ⟨"web-1", "default", .controller⟩] rfl⟩

/-- A run whose steps up to the pod listing all succeed: it is the calls up to the
listing, followed by the deletion loop and, when the loop returns `nil`, by the
reboot. -/
theorem Run_of_listed (env : Env) (n0 : Node) (pods : List Pod)
    (h1 : env.resetLabels = none) (h2 : env.markSchedulable = none)
    (h3 : (waitForRebootSignal env (afterReset n0)).2 = .nil) (h4 : env.announce = none)
    (h5 : (waitForOkToReboot env (afterAnnounce n0)).2 = .nil)
    (h6 : env.markInProgress = none) (h7 : env.markUnschedulable = none)
    (h8 : (getPodsForDeletion env (afterMarkUnschedulable n0)).2 = .ok pods) :
    Run env n0 =
      if (deletePods env (afterMarkUnschedulable n0) 0 pods).2 = .nil then
        ⟨traceListed env n0 ++ (deletePods env (afterMarkUnschedulable n0) 0 pods).1 ++
          [⟨.reboot false, none, afterMarkUnschedulable n0⟩,
            ⟨.sleep (24 * 7), none, afterMarkUnschedulable n0⟩], .nil⟩
      else
        ⟨traceListed env n0 ++ (deletePods env (afterMarkUnschedulable n0) 0 pods).1,
          (deletePods env (afterMarkUnschedulable n0) 0 pods).2⟩ := by
  refine Run_elim env n0 (fun x => x =
      if (deletePods env (afterMarkUnschedulable n0) 0 pods).2 = .nil then
        ⟨traceListed env n0 ++ (deletePods env (afterMarkUnschedulable n0) 0 pods).1 ++
          [⟨.reboot false, none, afterMarkUnschedulable n0⟩,
            ⟨.sleep (24 * 7), none, afterMarkUnschedulable n0⟩], .nil⟩
      else
        ⟨traceListed env n0 ++ (deletePods env (afterMarkUnschedulable n0) 0 pods).1,
          (deletePods env (afterMarkUnschedulable n0) 0 pods).2⟩) ?_ ?_ ?_ ?_ ?_ ?_ ?_ ?_ ?_ ?_
  · intro e h; rw [h1] at h; cases h
  · intro e _ h; rw [h2] at h; cases h
  · intro r _ _ h hr; rw [h3] at h; exact absurd h.symm hr
  · intro e _ _ _ h; rw [h4] at h; cases h
  · intro r _ _ _ _ h hr; rw [h5] at h; exact absurd h.symm hr
  · intro e _ _ _ _ _ h; rw [h6] at h; cases h
  · intro e _ _ _ _ _ _ h; rw [h7] at h; cases h
  · intro e _ _ _ _ _ _ _ h
    simp [getPodsForDeletion, h] at h8
  · intro pods2 r _ _ _ _ _ _ _ g h9 hr
    rw [h8] at g
    cases g
    simp only [h9, if_neg hr]
  · intro pods2 _ _ _ _ _ _ _ g h9
    rw [h8] at g
    cases g
    simp only [h9, if_true]

/-- C8: when the steps before the deletion loop succeed, `pods` are the pods
returned by `getPodsForDeletion` and the `Delete` call for the k-th of them is the
first to fail, `Run` returns an error that names the k-th pod, the `Delete` calls of
the run are exactly those for pods 1..k-1, in list order and without error, followed
by the failed one for pod k, that failed call is the last call of the run, and the
reboot sink is not invoked. -/
theorem delete_failure_aborts (env : Env) (n0 : Node) (pods : List Pod) (k : Nat)
    (p : Pod) (e : String)
    (h1 : env.resetLabels = none) (h2 : env.markSchedulable = none)
    (h3 : (waitForRebootSignal env n0).2 = .nil) (h4 : env.announce = none)
    (h5 : (waitForOkToReboot env n0).2 = .nil)
    (h6 : env.markInProgress = none) (h7 : env.markUnschedulable = none)
    (h8 : (getPodsForDeletion env n0).2 = .ok pods)
    (_hk : 1 ≤ k) (hp : pods.get? (k - 1) = some p)
    (hok : ∀ i, i < k - 1 → env.podDelete i = none)
    (hfail : env.podDelete (k - 1) = some e) :
    (Run env n0).ret = .err (.failedTerminatingPod p.Name e) ∧
    ((Run env n0).trace.filter (fun s => s.call.isPodDelete)).map (fun s => (s.call, s.err)) =
      (pods.take (k - 1)).map (fun q => (Call.podDelete q.Namespace q.Name 30, none)) ++
        [(Call.podDelete p.Namespace p.Name 30, some e)] ∧
    (∃ s, (Run env n0).trace.getLast? = some s ∧
      s.call = .podDelete p.Namespace p.Name 30 ∧ s.err = some e) ∧
    (∀ s ∈ (Run env n0).trace, s.call.isReboot = false) := by
  rw [waitForRebootSignal_ret env n0 (afterReset n0)] at h3
  rw [waitForOkToReboot_ret env n0 (afterAnnounce n0)] at h5
  rw [getPodsForDeletion_ret env n0 (afterMarkUnschedulable n0)] at h8
  have hd := deletePods_first_failure env (afterMarkUnschedulable n0) pods 0 (k - 1) p e hp
    (fun m hm => by simpa using hok m hm) (by simpa using hfail)
  have hrun := Run_of_listed env n0 pods h1 h2 h3 h4 h5 h6 h7 h8
  rw [hd] at hrun
  simp only [reduceCtorEq, if_false] at hrun
  rw [hrun]
  have hnoDel : (traceListed env n0).filter (fun s => s.call.isPodDelete) = [] := by
    rw [List.filter_eq_nil_iff]
    intro s hs
    simp [(traceListed_calls env n0 s hs).1]
  refine ⟨rfl, ?_, ?_, ?_⟩
  · simp only [List.filter_append, hnoDel, List.nil_append, List.map_append]
    congr 1
    · rw [List.filter_eq_self.mpr]
      · simp [List.map_map, Function.comp_def]
      · intro s hs
        obtain ⟨q, -, rfl⟩ := List.mem_map.mp hs
        rfl
  · exact ⟨⟨.podDelete p.Namespace p.Name 30, some e, afterMarkUnschedulable n0⟩,
      by simp [← List.append_assoc], rfl, rfl⟩
  · intro s hs
    simp only [List.mem_append, List.mem_map, List.mem_singleton] at hs
    rcases hs with hs | ⟨q, -, rfl⟩ | rfl
    · exact (traceListed_calls env n0 s hs).2
    · rfl
    · rfl

/-- C8, in scenario D: three pods, the second `Delete` fails. -/
theorem delete_failure_aborts_witness :
    (1 ≤ 2 ∧ threePods.get? (2 - 1) = some ⟨"web-2", "default", .controller⟩ ∧
      (∀ i, i < 2 - 1 → envSecondDeleteFails.podDelete i = none) ∧
      envSecondDeleteFails.podDelete (2 - 1) = some "etcdserver: request timed out") ∧
    ((Run envSecondDeleteFails nodeFresh).ret =
        .err (.failedTerminatingPod "web-2" "etcdserver: request timed out") ∧
      ((Run envSecondDeleteFails nodeFresh).trace.filter
          (fun s => s.call.isPodDelete)).map (fun s => (s.call, s.err)) =
        [(Call.podDelete "default" "web-1" 30, none),
          (Call.podDelete "default" "web-2" 30, some "etcdserver: request timed out")] ∧
      (∃ s, (Run envSecondDeleteFails nodeFresh).trace.getLast? = some s ∧
        s.call = .podDelete "default" "web-2" 30 ∧
        s.err = some "etcdserver: request timed out") ∧
      (∀ s ∈ (Run envSecondDeleteFails nodeFresh).trace, s.call.isReboot = false)) :=
  ⟨⟨by decide, rfl, by intro i hi; interval_cases i; rfl, rfl⟩,
    delete_failure_aborts envSecondDeleteFails nodeFresh threePods 2
      ⟨"web-2", "default", .controller⟩ "etcdserver: request timed out"
      rfl rfl rfl rfl rfl rfl rfl rfl (by decide) rfl
      (by intro i hi; interval_cases i; rfl) rfl⟩

theorem traceReset_ok (env : Env) (n0 : Node) : ∀ s ∈ traceReset env n0, s.err = none := by
  intro s hs
  simp only [traceReset, List.mem_cons, List.mem_singleton, List.not_mem_nil, or_false] at hs
  rcases hs with rfl | rfl <;> rfl

theorem traceMarkInProgress_ok (env : Env) (n0 : Node)
    (h3 : (waitForRebootSignal env (afterReset n0)).2 = .nil)
    (h5 : (waitForOkToReboot env (afterAnnounce n0)).2 = .nil) :
    ∀ s ∈ traceMarkInProgress env n0, s.err = none := by
  intro s hs
  exact traceListed_ok env n0 h3 h5 s (by simp only [traceListed, List.mem_append]; exact Or.inl hs)

/-- In every run, every call but the last has returned without error, and a run in
which some call has returned an error returns an error. -/
theorem Run_error_last (env : Env) (n0 : Node) :
    (∀ s ∈ (Run env n0).trace.dropLast, s.err = none) ∧
    (∀ s ∈ (Run env n0).trace, s.err ≠ none → ∃ e, (Run env n0).ret = .err e) := by
  refine Run_elim env n0 (fun x => (∀ s ∈ x.trace.dropLast, s.err = none) ∧
    (∀ s ∈ x.trace, s.err ≠ none → ∃ e, x.ret = .err e)) ?_ ?_ ?_ ?_ ?_ ?_ ?_ ?_ ?_ ?_
  · intro e _
    exact ⟨by simp, fun _ _ _ => ⟨_, rfl⟩⟩
  · intro e _ _
    exact ⟨by simp [List.dropLast], fun _ _ _ => ⟨_, rfl⟩⟩
  · intro r _ _ h _
    refine ⟨?_, ?_⟩
    · intro s hs
      rcases mem_dropLast_append hs with hs | hs
      · exact traceReset_ok env n0 s hs
      · exact waitForRebootSignal_dropLast env _ s hs
    · intro s hs he
      rcases List.mem_append.mp hs with hs | hs
      · exact absurd (traceReset_ok env n0 s hs) he
      · obtain ⟨e, hh⟩ := waitForRebootSignal_err env _ s hs he
        exact ⟨e, h.symm.trans hh⟩
  · intro e _ _ h3 _
    refine ⟨?_, fun _ _ _ => ⟨_, rfl⟩⟩
    intro s hs
    simp only [List.dropLast_concat] at hs
    rcases List.mem_append.mp hs with hs | hs
    · exact traceReset_ok env n0 s hs
    · exact waitForRebootSignal_nil env _ h3 s hs
  · intro r _ _ h3 _ h _
    refine ⟨?_, ?_⟩
    · intro s hs
      rcases mem_dropLast_append hs with hs | hs
      · exact (traceAnnounce_steps env n0 h3 s hs).1
      · exact waitForOkToReboot_dropLast env _ s hs
    · intro s hs he
      rcases List.mem_append.mp hs with hs | hs
      · exact absurd (traceAnnounce_steps env n0 h3 s hs).1 he
      · obtain ⟨e, hh⟩ := waitForOkToReboot_err env _ s hs he
        exact ⟨e, h.symm.trans hh⟩
  · intro e _ _ h3 _ h5 _
    refine ⟨?_, fun _ _ _ => ⟨_, rfl⟩⟩
    intro s hs
    simp only [List.dropLast_concat] at hs
    rcases List.mem_append.mp hs with hs | hs
    · exact (traceAnnounce_steps env n0 h3 s hs).1
    · exact (waitForOkToReboot_nil env _ h5).1 s hs
  · intro e _ _ h3 _ h5 _ _
    refine ⟨?_, fun _ _ _ => ⟨_, rfl⟩⟩
    intro s hs
    simp only [List.dropLast_concat] at hs
    exact traceMarkInProgress_ok env n0 h3 h5 s hs
  · intro e _ _ h3 _ h5 _ _ _
    refine ⟨?_, fun _ _ _ => ⟨_, rfl⟩⟩
    intro s hs
    have hl : traceMarkInProgress env n0 ++
        [(⟨.unschedulable env.node true, none, afterMarkUnschedulable n0⟩ : Step),
          ⟨.drainGetPodsForDeletion env.node, some e, afterMarkUnschedulable n0⟩] =
        (traceMarkInProgress env n0 ++
          [⟨.unschedulable env.node true, none, afterMarkUnschedulable n0⟩]) ++
          [⟨.drainGetPodsForDeletion env.node, some e, afterMarkUnschedulable n0⟩] := by simp
    simp only [] at hs
    rw [hl, List.dropLast_concat] at hs
    rcases List.mem_append.mp hs with hs | hs
    · exact traceMarkInProgress_ok env n0 h3 h5 s hs
    · simp only [List.mem_singleton] at hs
      subst hs; rfl
  · intro pods r _ _ h3 _ h5 _ _ _ h _
    refine ⟨?_, ?_⟩
    · intro s hs
      rcases mem_dropLast_append hs with hs | hs
      · exact traceListed_ok env n0 h3 h5 s hs
      · exact deletePods_dropLast env _ pods 0 s hs
    · intro s hs he
      rcases List.mem_append.mp hs with hs | hs
      · exact absurd (traceListed_ok env n0 h3 h5 s hs) he
      · obtain ⟨e, hh⟩ := deletePods_err env _ pods 0 s hs he
        exact ⟨e, h.symm.trans hh⟩
  · intro pods _ _ h3 _ h5 _ _ _ h9
    have hall : ∀ s ∈ traceListed env n0 ++ (deletePods env (afterMarkUnschedulable n0) 0 pods).1 ++
        [(⟨.reboot false, none, afterMarkUnschedulable n0⟩ : Step),
          ⟨.sleep (24 * 7), none, afterMarkUnschedulable n0⟩], s.err = none := by
      intro s hs
      simp only [List.mem_append, List.mem_cons, List.mem_singleton, List.not_mem_nil,
        or_false] at hs
      rcases hs with (hs | hs) | rfl | rfl
      · exact traceListed_ok env n0 h3 h5 s hs
      · exact (deletePods_nil env _ pods 0 h9).1 s hs
      · rfl
      · rfl
    exact ⟨fun s hs => hall s (List.mem_of_mem_dropLast hs), fun s hs he => absurd (hall s hs) he⟩

/-- C9: when a step of `Run` returns an error, `Run` returns an error and that
step is the last call of the run (no later step, no retry); when the failing step
belongs to the approval wait, the node is left with `reboot-needed = "true"` and
`reboot-in-progress = "false"`. -/
theorem failure_aborts_run (env : Env) (n0 : Node) :
    (∀ pre st post, (Run env n0).trace = pre ++ st :: post → st.err ≠ none →
      post = [] ∧ ∃ e, (Run env n0).ret = .err e) ∧
    (∀ s ∈ (Run env n0).trace, s.call.isApprovalWait = true → s.err ≠ none →
      (∃ e, (Run env n0).ret = .err e) ∧
      ((Run env n0).final n0).Labels.index labelRebootNeeded = "true" ∧
      ((Run env n0).final n0).Labels.index labelRebootInProgress = "false") := by
  obtain ⟨hdl, herr⟩ := Run_error_last env n0
  have hfirst : ∀ pre st post, (Run env n0).trace = pre ++ st :: post → st.err ≠ none →
      post = [] ∧ ∃ e, (Run env n0).ret = .err e := by
    intro pre st post h he
    exact ⟨dropLast_split hdl h he, herr st (by simp [h]) he⟩
  refine ⟨hfirst, ?_⟩
  intro s hs hc he
  obtain ⟨pre, post, h⟩ := List.append_of_mem hs
  obtain ⟨hpost, hret⟩ := hfirst pre s post h he
  subst hpost
  have hnode : s.node = afterAnnounce n0 := by
    revert hc
    refine Run_forall_steps env n0 (fun s => s.call.isApprovalWait = true →
      s.node = afterAnnounce n0) ?_ ?_ ?_ ?_ ?_ ?_ ?_ ?_ s hs
    · intro e; simp [Call.isApprovalWait]
    · intro e; simp [Call.isApprovalWait]
    · rintro c e (rfl | rfl) <;> simp [Call.isApprovalWait]
    · intro e; simp [Call.isApprovalWait]
    · intro c e _ _; rfl
    · intro e; simp [Call.isApprovalWait]
    · intro e; simp [Call.isApprovalWait]
    · rintro c e (rfl | h | rfl | rfl) <;> simp [Call.isApprovalWait]
      intro hc
      revert h hc
      cases c <;> simp [Call.isApprovalWait, Call.isPodDelete]
  have hfinal : (Run env n0).final n0 = afterAnnounce n0 := by
    simp [Exec.final, h, hnode]
  rw [hfinal]
  refine ⟨hret, ?_, ?_⟩
  · simp [LabelMap.index, afterAnnounce, afterReset, unschedulable, setNodeLabels, mergeLabels,
      labelRebootInProgress, labelRebootNeeded]
  · simp [LabelMap.index, afterAnnounce, afterReset, unschedulable, setNodeLabels, mergeLabels,
      labelRebootInProgress, labelRebootNeeded]

/-- C9, in scenario B: the watch times out; it is the seventh and last call. -/
theorem failure_aborts_run_witness :
    (Run envApprovalTimeout nodeFresh).trace =
      (Run envApprovalTimeout nodeFresh).trace.take 6 ++
        ⟨.watchUntil 24 labelOkToReboot "true",
          some "timed out waiting for the condition", afterAnnounce nodeFresh⟩ :: [] ∧
    (([] : List Step) = [] ∧ ∃ e, (Run envApprovalTimeout nodeFresh).ret = .err e) ∧
    ((∃ e, (Run envApprovalTimeout nodeFresh).ret = .err e) ∧
      ((Run envApprovalTimeout nodeFresh).final nodeFresh).Labels.index labelRebootNeeded
        = "true" ∧
      ((Run envApprovalTimeout nodeFresh).final nodeFresh).Labels.index labelRebootInProgress
        = "false") :=
  ⟨rfl,
    (failure_aborts_run envApprovalTimeout nodeFresh).1
      ((Run envApprovalTimeout nodeFresh).trace.take 6)
      ⟨.watchUntil 24 labelOkToReboot "true",
        some "timed out waiting for the condition", afterAnnounce nodeFresh⟩ [] rfl
      (by simp),
    (failure_aborts_run envApprovalTimeout nodeFresh).2
      ⟨.watchUntil 24 labelOkToReboot "true",
        some "timed out waiting for the condition", afterAnnounce nodeFresh⟩
      (by
        have h : (Run envApprovalTimeout nodeFresh).trace =
          (Run envApprovalTimeout nodeFresh).trace.take 6 ++
            [⟨.watchUntil 24 labelOkToReboot "true",
              some "timed out waiting for the condition", afterAnnounce nodeFresh⟩] := rfl
        rw [h]
        simp)
      rfl (by simp)⟩

/-- A run whose Reset step succeeds: its second call is `unschedulable(false)`,
returns without error and leaves the node `afterReset n0`. -/
theorem Run_reset_step (env : Env) (n0 : Node) (h1 : env.resetLabels = none)
    (h2 : env.markSchedulable = none) :
    (Run env n0).trace[1]? = some ⟨.unschedulable env.node false, none, afterReset n0⟩ := by
  refine Run_elim env n0 (fun x => x.trace[1]? =
    some ⟨.unschedulable env.node false, none, afterReset n0⟩) ?_ ?_ ?_ ?_ ?_ ?_ ?_ ?_ ?_ ?_
  · intro e h; rw [h1] at h; cases h
  · intro e _ h; rw [h2] at h; cases h
  all_goals
    intros
    simp [traceListed, traceMarkInProgress, traceAnnounce, traceReset]

/-- Reset on a node that Reset has left changes nothing. -/
theorem afterReset_afterReset (n0 : Node) : afterReset (afterReset n0) = afterReset n0 := by
  simp only [afterReset, unschedulable, setNodeLabels, mergeLabels, List.foldl_cons,
    List.foldl_nil, Node.mk.injEq, and_true]
  funext k
  by_cases hk1 : k = labelRebootNeeded
  · simp [hk1]
  · by_cases hk2 : k = labelRebootInProgress
    · simp [hk1, hk2]
    · simp [hk1, hk2]

/-- C10: the Reset step of `Run` (the label patch to `"false"`, then
`unschedulable(false)`) is idempotent: when it succeeds twice in a row the second
application leaves the node as the first did, with `reboot-needed = "false"`,
`reboot-in-progress = "false"`, the node schedulable and every other label as it
was. -/
theorem reset_idempotent (env env2 : Env) (n0 : Node)
    (h1 : env.resetLabels = none) (h2 : env.markSchedulable = none)
    (h3 : env2.resetLabels = none) (h4 : env2.markSchedulable = none) :
    ∃ s1 s2, (Run env n0).trace[1]? = some s1 ∧ (Run env2 s1.node).trace[1]? = some s2 ∧
      s1.call = .unschedulable env.node false ∧ s1.err = none ∧
      s2.call = .unschedulable env2.node false ∧ s2.err = none ∧
      s2.node = s1.node ∧
      s1.node.Labels labelRebootNeeded = some "false" ∧
      s1.node.Labels labelRebootInProgress = some "false" ∧
      s1.node.Unschedulable = false ∧
      ∀ k, k ≠ labelRebootNeeded → k ≠ labelRebootInProgress →
        s1.node.Labels k = n0.Labels k := by
  refine ⟨⟨.unschedulable env.node false, none, afterReset n0⟩,
    ⟨.unschedulable env2.node false, none, afterReset (afterReset n0)⟩,
    Run_reset_step env n0 h1 h2, Run_reset_step env2 (afterReset n0) h3 h4,
    rfl, rfl, rfl, rfl, afterReset_afterReset n0, ?_, ?_, ?_, ?_⟩
  · simp [afterReset, unschedulable, setNodeLabels, mergeLabels]
  · simp [afterReset, unschedulable, setNodeLabels, mergeLabels, labelRebootInProgress,
      labelRebootNeeded]
  · simp [afterReset, unschedulable]
  · intro k hk1 hk2
    simp [afterReset, unschedulable, setNodeLabels, mergeLabels, hk1, hk2]

/-- C10, at a node in the middle of a reboot: `reboot-needed`,
`reboot-in-progress` and `ok-to-reboot` all `"true"`, and unschedulable. -/
theorem reset_idempotent_witness :
    ((envAllOk []).resetLabels = none ∧ (envAllOk []).markSchedulable = none ∧
      envApprovalTimeout.resetLabels = none ∧ envApprovalTimeout.markSchedulable = none) ∧
    ∃ s1 s2, (Run (envAllOk []) (afterMarkUnschedulable nodeApproved)).trace[1]? = some s1 ∧
      (Run envApprovalTimeout s1.node).trace[1]? = some s2 ∧
      s1.call = .unschedulable (envAllOk []).node false ∧ s1.err = none ∧
      s2.call = .unschedulable envApprovalTimeout.node false ∧ s2.err = none ∧
      s2.node = s1.node ∧
      s1.node.Labels labelRebootNeeded = some "false" ∧
      s1.node.Labels labelRebootInProgress = some "false" ∧
      s1.node.Unschedulable = false ∧
      ∀ k, k ≠ labelRebootNeeded → k ≠ labelRebootInProgress →
        s1.node.Labels k = (afterMarkUnschedulable nodeApproved).Labels k :=
  ⟨⟨rfl, rfl, rfl, rfl⟩,
    reset_idempotent (envAllOk []) envApprovalTimeout (afterMarkUnschedulable nodeApproved)
      rfl rfl rfl rfl⟩

end klocksmith

namespace transitions

open constants

/-- The edges of the agent table of `transitions.go`. -/
theorem hasEdge_agent_iff (s t : StatusAnnotation) :
    hasEdge agentTransitionMap s t = true ↔
      (s = NoUpdateAvailable ∧ t = UpdateAvailable) ∨
      (s = UpdateExpected ∧ t = UpdateInProgress) ∨
      (s = UpdateInProgress ∧ t = NoUpdateAvailable) := by
  simp only [hasEdge, agentTransitionMap, NoUpdateAvailable, UpdateAvailable, UpdateExpected,
    UpdateInProgress, UpdateDisabled, UpdatesDisabled, List.lookup]
  by_cases h1 : s = "no-update-available"
  · subst h1; simp [eq_comm]
  by_cases h2 : s = "update-available"
  · subst h2; simp
  by_cases h3 : s = "update-expected"
  · subst h3; simp [eq_comm]
  by_cases h4 : s = "update-in-progress"
  · subst h4; simp [eq_comm]
  by_cases h5 : s = "disabled"
  · subst h5; simp
  have e1 : (s == "no-update-available") = false := by simpa using h1
  have e2 : (s == "update-available") = false := by simpa using h2
  have e3 : (s == "update-expected") = false := by simpa using h3
  have e4 : (s == "update-in-progress") = false := by simpa using h4
  have e5 : (s == "disabled") = false := by simpa using h5
  simp [e1, e2, e3, e4, e5, h1, h3, h4]

/-- The edges of the operator table of `transitions.go`. -/
theorem hasEdge_operator_iff (s t : StatusAnnotation) :
    hasEdge operatorTransitionMap s t = true ↔ (s = UpdateAvailable ∧ t = UpdateExpected) := by
  simp only [hasEdge, operatorTransitionMap, UpdateAvailable, UpdateExpected, List.lookup]
  by_cases h2 : s = "update-available"
  · subst h2; simp [eq_comm]
  have e2 : (s == "update-available") = false := by simpa using h2
  simp [e2, h2]

/-- No row of either table of `transitions.go` maps a state to itself. -/
theorem hasEdge_self (r : Role) (s : StatusAnnotation) : hasEdge r.table s s = false := by
  have na1 : ¬ (NoUpdateAvailable = UpdateAvailable) := by decide
  have na2 : ¬ (UpdateExpected = UpdateInProgress) := by decide
  have na3 : ¬ (UpdateInProgress = NoUpdateAvailable) := by decide
  have no1 : ¬ (UpdateAvailable = UpdateExpected) := by decide
  cases r with
  | agent =>
    cases h : hasEdge (Role.table .agent) s s with
    | false => rfl
    | true =>
      exfalso
      rcases (hasEdge_agent_iff s s).mp h with ⟨h1, h2⟩ | ⟨h1, h2⟩ | ⟨h1, h2⟩
      · exact na1 (h1.symm.trans h2)
      · exact na2 (h1.symm.trans h2)
      · exact na3 (h1.symm.trans h2)
  | operator =>
    cases h : hasEdge (Role.table .operator) s s with
    | false => rfl
    | true =>
      exfalso
      obtain ⟨h1, h2⟩ := (hasEdge_operator_iff s s).mp h
      exact no1 (h1.symm.trans h2)

/-- C6: for every state S, target T and role R, a transition S->T to another state
is accepted if and only if T is a member of the set the table of R maps S to, and
the self-transition S->S is accepted for every S and R (it is the one accepted move
that is in no table: neither table maps a state to itself). On the tables of
`transitions.go` the agent is therefore accepted exactly for re-assertions and for
NoUpdateAvailable->UpdateAvailable, UpdateExpected->UpdateInProgress,
UpdateInProgress->NoUpdateAvailable, and the operator exactly for re-assertions
and for UpdateAvailable->UpdateExpected. -/
theorem accepted_iff_member (r : Role) (s t : StatusAnnotation) :
    (t ≠ s → (accepted r s t = true ↔ hasEdge r.table s t = true)) ∧
    accepted r s s = true ∧
    hasEdge r.table s s = false ∧
    (accepted r s t = true ↔ (t = s ∨ hasEdge r.table s t = true)) ∧
    (accepted .agent s t = true ↔
      (t = s ∨ (s = NoUpdateAvailable ∧ t = UpdateAvailable) ∨
        (s = UpdateExpected ∧ t = UpdateInProgress) ∨
        (s = UpdateInProgress ∧ t = NoUpdateAvailable))) ∧
    (accepted .operator s t = true ↔
      (t = s ∨ (s = UpdateAvailable ∧ t = UpdateExpected))) := by
  have hacc : ∀ (r : Role), accepted r s t = true ↔ (t = s ∨ hasEdge r.table s t = true) := by
    intro r
    simp only [accepted, Bool.or_eq_true, beq_iff_eq]
    constructor
    · rintro (h | h)
      · exact Or.inl h.symm
      · exact Or.inr h
    · rintro (h | h)
      · exact Or.inl h.symm
      · exact Or.inr h
  refine ⟨?_, ?_, hasEdge_self r s, hacc r, ?_, ?_⟩
  · intro hne
    rw [hacc r]
    constructor
    · rintro (h | h)
      · exact absurd h hne
      · exact h
    · intro h
      exact Or.inr h
  · simp only [accepted, Bool.or_eq_true, beq_iff_eq]
    exact Or.inl trivial
  · rw [hacc .agent]
    exact or_congr Iff.rfl (hasEdge_agent_iff s t)
  · rw [hacc .operator]
    exact or_congr Iff.rfl (hasEdge_operator_iff s t)

/-- C6, at the edge UpdateAvailable->UpdateExpected: it is a move to another
state, in the operator table and not in the agent table, so the operator is
accepted and the agent refused; re-asserting `disabled` is accepted. -/
theorem accepted_iff_member_witness :
    UpdateExpected ≠ UpdateAvailable ∧
    (accepted .operator UpdateAvailable UpdateExpected = true ↔
      hasEdge (Role.table .operator) UpdateAvailable UpdateExpected = true) ∧
    (accepted .agent UpdateAvailable UpdateExpected = true ↔
      hasEdge (Role.table .agent) UpdateAvailable UpdateExpected = true) ∧
    accepted .operator UpdateAvailable UpdateExpected = true ∧
    accepted .agent UpdateAvailable UpdateExpected = false ∧
    accepted .agent UpdatesDisabled UpdatesDisabled = true :=
  ⟨by decide,
    (accepted_iff_member .operator UpdateAvailable UpdateExpected).1 (by decide),
    (accepted_iff_member .agent UpdateAvailable UpdateExpected).1 (by decide),
    by decide, by decide,
    (accepted_iff_member .agent UpdatesDisabled UpdatesDisabled).2.1⟩

end transitions
